import Mathlib

/-!
# A shallow embedding of the TGT ECS core (`src/unnamed/part_000`, i.e. `ecs.js`)

The embedded classes are `Entity`, `System` and `Scene`.  JavaScript objects
are modelled as follows:

* A JS plain object used as a string-keyed map (`Entity._components`,
  `Scene._entities`) is an insertion-ordered association list
  `List (String × α)`; property write is `objSet` (overwrite in place when the
  key exists, append otherwise) and property read is `objGet`.
* Component instances are field maps `Obj := List (String × Val)`; a component
  type ("class") is its `name` together with the fields its constructor
  initialises.
* Entities and systems have reference semantics in JS (the same object is
  reachable from the scene map, from `System.entities` and from
  `Entity._systems`), so the world holds two heaps `ents : Nat → EntityObj`
  and `syss : Nat → SystemObj` addressed by references, with allocation
  counters `nextE`/`nextS`.  Unallocated cells hold the default object.
* `System.test` is an arbitrary boolean predicate on the entity object,
  mirroring the overridable JS method (the base-class default returns
  `false`).  The lifecycle hooks `init`/`exit` and the ad-hoc named hooks are
  notification callbacks; their invocations are recorded in an event `log`
  (the order of `log` is the order of the calls).  A system's set of callable
  method names is `test`, `init`, `exit` (defined on the base class) plus the
  subclass's own `hooks`.
-/

abbrev Val := Int

abbrev Obj := List (String × Val)

/-- JS property read on a plain object used as a map: the value under key `k`,
`none` standing for `undefined`. -/
def objGet {α : Type} (l : List (String × α)) (k : String) : Option α :=
  (l.find? (fun p => p.1 == k)).map (fun p => p.2)

/-- JS `key in object` / `!= undefined` check. -/
def objHas {α : Type} (l : List (String × α)) (k : String) : Bool :=
  (objGet l k).isSome

/-- JS property write `object[k] = v`: overwrite in place when the key exists
(keeping its position), append otherwise.  (Keys of a JS object are unique,
so replacing the first occurrence is replacing the occurrence.) -/
def objSet {α : Type} : List (String × α) → String → α → List (String × α)
  | [], k, v => [(k, v)]
  | p :: l, k, v => if p.1 == k then (k, v) :: l else p :: objSet l k v

/-- A component type: a class with a `name` and the instance fields its
constructor creates (`new component()` yields `fields`). -/
structure ComponentType where
  name : String
  fields : Obj := []
deriving DecidableEq, Repr

/-- The state of one `Entity` object (part_000 lines 101-190): `id` (empty
until a scene assigns one), `systems` models `_systems` (references to the
systems that can affect this entity) and `components` models `_components`
(component name to instance). -/
structure EntityObj where
  id : String := ""
  systems : List Nat := []
  components : List (String × Obj) := []
deriving DecidableEq, Repr

/-- `Entity.add` (lines 139-141): `this._components[component.name] = new
component()`. -/
def EntityObj.add (e : EntityObj) (c : ComponentType) : EntityObj :=
  { e with components := objSet e.components c.name c.fields }

/-- The `Entity` constructor (lines 107-132): starts with empty id, no
systems, no components, then `add`s each given component. -/
def EntityObj.new (cs : List ComponentType) : EntityObj :=
  cs.foldl (fun e c => e.add c) { id := "", systems := [], components := [] }

/-- `Entity.get` (lines 150-152): the entity's instance of the component,
`none` standing for `undefined`. -/
def EntityObj.get (e : EntityObj) (c : ComponentType) : Option Obj :=
  objGet e.components c.name

/-- `Entity.has` (lines 172-177): true iff the entity holds an instance for
every given component name. -/
def EntityObj.has (e : EntityObj) (cs : List ComponentType) : Bool :=
  cs.all (fun c => objHas e.components c.name)

/-- The class of JS runtime errors the embedded code can raise. -/
inductive JSError where
  | typeError
deriving DecidableEq, Repr

/-- One iteration of `Entity.set`'s loop body (line 161):
`this.get(component)[key] = data[key]`.  `this.get(component)` is re-read for
every key; when the entity does not hold the component it is `undefined` and
the field assignment throws a TypeError. -/
def setcStep (c : ComponentType) (acc : Except JSError EntityObj)
    (kv : String × Val) : Except JSError EntityObj :=
  match acc with
  | Except.error err => Except.error err
  | Except.ok e' =>
    match objGet e'.components c.name with
    | none => Except.error JSError.typeError
    | some inst =>
        Except.ok
          { e' with components :=
              objSet e'.components c.name (objSet inst kv.1 kv.2) }

/-- `Entity.set` (lines 159-163): `for (let key in data)
this.get(component)[key] = data[key]`.  With an empty `data` the loop body
never runs, so nothing is thrown even when the component is missing. -/
def EntityObj.setc (e : EntityObj) (c : ComponentType) (data : Obj) :
    Except JSError EntityObj :=
  data.foldl (setcStep c) (Except.ok e)

/-- The state of one `System` object (lines 198-238).  `scene` is the
back-reference set by `Scene.addSystem` (modelled as an attached flag, there
being a single scene in a world); `entities` is `matchedEntities`; `test` is
the overridable membership predicate (base default: always `false`);
`hooks` lists the names of the additional callable methods the concrete
subclass defines (on top of the base methods `test`, `init`, `exit`). -/
structure SystemObj where
  scene : Bool := false
  entities : List Nat := []
  test : EntityObj → Bool := fun _ => false
  hooks : List String := []

/-- `typeof system[funcName] === "function"` (lines 187, 373): the base class
defines `test`, `init` and `exit`; a subclass additionally defines its own
hooks. -/
def SystemObj.hasHook (sy : SystemObj) (fn : String) : Bool :=
  (["test", "init", "exit"].contains fn) || sy.hooks.contains fn

/-- One recorded hook invocation: `init s e` and `exit s e` are the lifecycle
calls `s.init(e)` / `s.exit(e)`; `hook fn s e` is a dispatched call
`s[fn](e, param)`. -/
inductive Event where
  | init (s : Nat) (e : Nat)
  | exit (s : Nat) (e : Nat)
  | hook (fn : String) (s : Nat) (e : Nat)
deriving DecidableEq, Repr

/-- The state of the one `Scene` object (lines 246-273): `entities` models
`_entities` (a plain object mapping id to entity), `systems` models
`_systems` (an array, insertion order), `count` models `_count`. -/
structure Scene where
  entities : List (String × Nat) := []
  systems : List Nat := []
  count : Nat := 0
deriving DecidableEq, Repr

/-- The whole mutable state: the two object heaps with their allocation
counters, the scene, and the log of hook invocations performed so far. -/
structure World where
  ents : Nat → EntityObj := fun _ => {}
  nextE : Nat := 0
  syss : Nat → SystemObj := fun _ => {}
  nextS : Nat := 0
  scene : Scene := {}
  log : List Event := []

/-- Dereference an entity. -/
def World.ent (w : World) (r : Nat) : EntityObj := w.ents r

/-- Dereference a system. -/
def World.sys (w : World) (s : Nat) : SystemObj := w.syss s

/-- Overwrite the entity object stored at reference `r`. -/
def World.setEnt (w : World) (r : Nat) (e : EntityObj) : World :=
  { w with ents := Function.update w.ents r e }

/-- Overwrite the system object stored at reference `s`. -/
def World.setSys (w : World) (s : Nat) (sy : SystemObj) : World :=
  { w with syss := Function.update w.syss s sy }

/-- Record one hook invocation. -/
def World.logEv (w : World) (ev : Event) : World :=
  { w with log := w.log ++ [ev] }

/-- Allocate a fresh entity via the `Entity` constructor; returns the new
reference (`new Entity(...cs)`). -/
def World.newEntity (w : World) (cs : List ComponentType) : World × Nat :=
  ({ w with ents := Function.update w.ents w.nextE (EntityObj.new cs),
            nextE := w.nextE + 1 }, w.nextE)

/-- Allocate a fresh system with the given overriding `test` and subclass
hooks (the `System` subclass constructor, lines 202-215). -/
def World.newSystem (w : World) (t : EntityObj → Bool) (hs : List String) :
    World × Nat :=
  ({ w with syss := Function.update w.syss w.nextS
              { scene := false, entities := [], test := t, hooks := hs },
            nextS := w.nextS + 1 }, w.nextS)

/-- `Scene.generateUID` (line 280): `(this._count++).toString()` — returns the
current counter rendered in decimal, then increments it. -/
def World.generateUID (w : World) : String × World :=
  (Nat.repr w.scene.count,
   { w with scene := { w.scene with count := w.scene.count + 1 } })

/-- The membership-establishing body shared by the three matching loops
(lines 300-303, 357-360, 404-407): push the system onto the entity's
`_systems`, push the entity onto the system's `matchedEntities`, then invoke
`system.init(entity)`.  (`addEntity` performs the two pushes in the opposite
order from `addSystem`/`addComponentToEntity`; the two pushes touch distinct
objects, so the resulting state is the same.) -/
def World.matchInit (w : World) (s r : Nat) : World :=
  let sy := w.sys s
  let e := w.ent r
  (((w.setEnt r { e with systems := e.systems ++ [s] }).setSys s
      { sy with entities := sy.entities ++ [r] }).logEv (Event.init s r))

/-- One iteration of the `addEntity` system loop (lines 298-304):
`if (system.test(entity)) { ...; system.init(entity) }`. -/
def World.entMatchStep (w : World) (r s : Nat) : World :=
  if (w.sys s).test (w.ent r) then w.matchInit s r else w

/-- One iteration of the `addSystem` entity scan (lines 355-362). -/
def World.sysMatchStep (w : World) (s : Nat) (p : String × Nat) : World :=
  if (w.sys s).test (w.ent p.2) then w.matchInit s p.2 else w

/-- One iteration of the `addComponentToEntity` loop (lines 401-409): the
`matchedEntities` membership check (`indexOf === -1`) runs before `test`. -/
def World.compMatchStep (w : World) (r s : Nat) : World :=
  if r ∈ (w.sys s).entities then w
  else if (w.sys s).test (w.ent r) then w.matchInit s r else w

/-- The id `addEntity` assigns: the explicit one when given, else the
generated one (lines 291-294). -/
def World.assignedId (w : World) (id? : Option String) : String :=
  id?.getD (Nat.repr w.scene.count)

/-- The first half of `Scene.addEntity` (lines 290-296): assign the id
(generating one when none is given) and store the entity in `_entities`
under it. -/
def World.addEntityStore (w : World) (r : Nat) (id? : Option String) : World :=
  let (newId, w1) :=
    match id? with
    | none => w.generateUID
    | some i => (i, w)
  let w2 := w1.setEnt r { w1.ent r with id := newId }
  { w2 with scene := { w2.scene with entities := objSet w2.scene.entities newId r } }

/-- `Scene.addEntity` (lines 290-307): store under the assigned id, then scan
`_systems` in insertion order matching the entity; returns the entity. -/
def World.addEntity (w : World) (r : Nat) (id? : Option String) : World × Nat :=
  let w1 := w.addEntityStore r id?
  (w1.scene.systems.foldl (fun acc s => acc.entMatchStep r s) w1, r)

/-- `Scene.removeEntity` (lines 316-331).  Its first statement evaluates
`this._entities.indexOf(entity)`, but `_entities` is a plain object
(initialised to `{}` at line 257) and plain objects have no `indexOf`
method, so every call — whether or not the entity is in the scene — throws
`TypeError: this._entities.indexOf is not a function` before any state is
modified.  The intended body (the `exit` calls, the splices, the clearing of
`entity.id`) is unreachable. -/
def World.removeEntity (_w : World) (_r : Nat) : Except JSError World :=
  Except.error JSError.typeError

/-- `Scene.getEntity` (lines 340-342): the entity stored under `id`, `none`
standing for `undefined`. -/
def World.getEntity (w : World) (id : String) : Option Nat :=
  objGet w.scene.entities id

/-- The first half of `Scene.addSystem` (lines 349-352): append the system to
`_systems` and set its scene back-reference. -/
def World.addSystemAttach (w : World) (s : Nat) : World :=
  let w1 := { w with scene := { w.scene with systems := w.scene.systems ++ [s] } }
  w1.setSys s { w1.sys s with scene := true }

/-- `Scene.addSystem` (lines 349-363): attach, then scan every entity of
`_entities` in enumeration order, matching each that passes `test`. -/
def World.addSystem (w : World) (s : Nat) : World :=
  let w1 := w.addSystemAttach s
  w1.scene.entities.foldl (fun acc p => acc.sysMatchStep s p) w1

/-- `Scene.query` (lines 385-391): collect, in `_entities` enumeration order,
every entity that `has` all the given components.  The source reads state and
pushes onto a local array only, so the embedding has no world output. -/
def World.query (w : World) (cs : List ComponentType) : List Nat :=
  w.scene.entities.foldl
    (fun ms p => if (w.ent p.2).has cs then ms ++ [p.2] else ms) []

/-- `Scene.addComponentToEntity` (lines 399-410): `entity.add(component)`,
then scan `_systems`, matching each system whose `matchedEntities` does not
already contain the entity and whose `test` now passes. -/
def World.addComponentToEntity (w : World) (r : Nat) (c : ComponentType) :
    World :=
  let w1 := w.setEnt r ((w.ent r).add c)
  w1.scene.systems.foldl (fun acc s => acc.compMatchStep r s) w1

/-- `Entity.dispatch` (lines 185-189): for every system of `_systems` in
order, if it has a callable method named `fn`, invoke it with the entity (and
the parameter).  The invocations are recorded in the log. -/
def World.entityDispatch (w : World) (r : Nat) (fn : String) : World :=
  (w.ent r).systems.foldl
    (fun acc s =>
      if (acc.sys s).hasHook fn then acc.logEv (Event.hook fn s r) else acc) w

/-- `Scene.dispatch` (lines 371-376): for every system of `_systems` in
order that has a callable method named `fn`, invoke it once per entity of its
`matchedEntities` in that system's own order. -/
def World.sceneDispatch (w : World) (fn : String) : World :=
  w.scene.systems.foldl
    (fun acc s =>
      if (acc.sys s).hasHook fn then
        (acc.sys s).entities.foldl
          (fun acc2 r => acc2.logEv (Event.hook fn s r)) acc
      else acc) w

/-- The operations a client can perform on the ECS: object construction and
the public `Scene`/`Entity` methods. -/
inductive Op where
  | newEntity (cs : List ComponentType)
  | newSystem (t : EntityObj → Bool) (hs : List String)
  | addEntity (r : Nat) (id? : Option String)
  | addSystem (s : Nat)
  | addComponent (r : Nat) (c : ComponentType)
  | removeEntity (r : Nat)
  | entityDispatch (r : Nat) (fn : String)
  | sceneDispatch (fn : String)

/-- Execute one operation.  `removeEntity` throws its TypeError before
mutating anything, so the state observed after the exception propagates is
the unchanged state. -/
def World.step (w : World) : Op → World
  | Op.newEntity cs => (w.newEntity cs).1
  | Op.newSystem t hs => (w.newSystem t hs).1
  | Op.addEntity r id? => (w.addEntity r id?).1
  | Op.addSystem s => w.addSystem s
  | Op.addComponent r c => w.addComponentToEntity r c
  | Op.removeEntity r =>
      match w.removeEntity r with
      | Except.ok w' => w'
      | Except.error _ => w
  | Op.entityDispatch r fn => w.entityDispatch r fn
  | Op.sceneDispatch fn => w.sceneDispatch fn

/-- Execute a sequence of operations. -/
def World.run (w : World) (ops : List Op) : World := ops.foldl World.step w

/-- The state before anything is constructed. -/
def World.init : World := {}

/-- An operation is valid when every object reference it passes has actually
been constructed (in JS one can only pass objects that exist). -/
def Op.valid (w : World) : Op → Bool
  | Op.newEntity _ => true
  | Op.newSystem _ _ => true
  | Op.addEntity r _ => r < w.nextE
  | Op.addSystem s => s < w.nextS
  | Op.addComponent r _ => r < w.nextE
  | Op.removeEntity _ => true
  | Op.entityDispatch r _ => r < w.nextE
  | Op.sceneDispatch _ => true

/-- Validity of a whole operation sequence from a given state. -/
def World.validFrom (w : World) : List Op → Bool
  | [] => true
  | op :: ops => op.valid w && (w.step op).validFrom ops

/-- Is the entity reference currently a value of the scene's `_entities`
mapping? -/
def World.inScene (w : World) (r : Nat) : Bool :=
  w.scene.entities.any (fun p => p.2 == r)

/-- A test that depends only on the entity's id and components (not on its
`_systems` back-references). -/
def Componental (t : EntityObj → Bool) : Prop :=
  ∀ a b : EntityObj, a.id = b.id → a.components = b.components → t a = t b

/-- A test that depends only on the entity's components. -/
def ComponentsOnly (t : EntityObj → Bool) : Prop :=
  ∀ a b : EntityObj, a.components = b.components → t a = t b

/-- A test that never stops holding when a component is added. -/
def MonotoneTest (t : EntityObj → Bool) : Prop :=
  ∀ (e : EntityObj) (c : ComponentType), t e = true → t (e.add c) = true

/-- Membership symmetry over the whole heap: an entity is in a system's
`matchedEntities` exactly when the system is in the entity's
`memberSystems`. -/
def MembershipSym (w : World) : Prop :=
  ∀ r s : Nat, r ∈ (w.sys s).entities ↔ s ∈ (w.ent r).systems

/-- Heap cells at or above the allocation counters still hold the default
objects. -/
def Unalloc (w : World) : Prop :=
  (∀ r : Nat, w.nextE ≤ r → w.ent r = {}) ∧
  (∀ s : Nat, w.nextS ≤ s → w.sys s = {})

/-- Predicate consistency over the whole heap: an entity is in a system's
`matchedEntities` exactly when the system's `test` currently passes on it,
the entity is currently in the scene and the system is currently in the
scene. -/
def PredConsistent (w : World) : Prop :=
  ∀ r s : Nat,
    r ∈ (w.sys s).entities ↔
      ((w.sys s).test (w.ent r) = true ∧ w.inScene r = true ∧
        s ∈ w.scene.systems)

/-- The per-operation side conditions under which predicate consistency is an
invariant: references valid, system tests componental and monotone, ids
assigned by `addEntity` fresh, `addComponentToEntity` applied only to
entities currently in the scene. -/
def Op.sound (w : World) : Op → Prop
  | Op.newEntity _ => True
  | Op.newSystem t _ => ComponentsOnly t ∧ MonotoneTest t
  | Op.addEntity r id? =>
      r < w.nextE ∧ objHas w.scene.entities (w.assignedId id?) = false
  | Op.addSystem s => s < w.nextS
  | Op.addComponent r _ => r < w.nextE ∧ w.inScene r = true
  | Op.removeEntity _ => True
  | Op.entityDispatch _ _ => True
  | Op.sceneDispatch _ => True

/-- Soundness of a whole operation sequence from a given state. -/
def World.soundFrom (w : World) : List Op → Prop
  | [] => True
  | op :: ops => op.sound w ∧ (w.step op).soundFrom ops

/-- Every reference stored in the scene's two collections has actually been
allocated. -/
def SceneBounds (w : World) : Prop :=
  (∀ p ∈ w.scene.entities, p.2 < w.nextE) ∧
  (∀ s ∈ w.scene.systems, s < w.nextS)

/-- Every system's test (the default one of unallocated cells included) is
componental and monotone. -/
def TestsGood (w : World) : Prop :=
  ∀ s : Nat, ComponentsOnly (w.sys s).test ∧ MonotoneTest (w.sys s).test

/-- The inductive invariant behind membership symmetry. -/
def SymInv (w : World) : Prop :=
  MembershipSym w ∧ Unalloc w ∧ SceneBounds w

/-- The inductive invariant behind predicate consistency. -/
def PredInv (w : World) : Prop :=
  PredConsistent w ∧ Unalloc w ∧ SceneBounds w ∧ TestsGood w

/-- Two worlds that differ at most in their hook-invocation log. -/
def SameSkeleton (w w' : World) : Prop :=
  w'.ents = w.ents ∧ w'.syss = w.syss ∧ w'.scene = w.scene ∧
    w'.nextE = w.nextE ∧ w'.nextS = w.nextS

/-- Joint description of what a matching scan over systems does, relative to
the state `w` it starts from: `matched` systems get the entity appended to
their `matchedEntities` (once per occurrence), the entity gets the matched
systems appended to its `memberSystems` in scan order, one `init` event is
logged per match in scan order, and nothing else changes. -/
def MatchLoopOut (w w' : World) (r : Nat) (matched : List Nat) : Prop :=
  w'.log = w.log ++ matched.map (fun s => Event.init s r) ∧
  w'.ent r = { w.ent r with systems := (w.ent r).systems ++ matched } ∧
  (∀ r' : Nat, r' ≠ r → w'.ent r' = w.ent r') ∧
  (∀ s' : Nat, w'.sys s' =
    { w.sys s' with entities :=
        (w.sys s').entities ++ List.replicate (matched.count s') r }) ∧
  w'.scene = w.scene ∧ w'.nextE = w.nextE ∧ w'.nextS = w.nextS

/-- Joint description of what `addSystem`'s scan over the scene's entity
mapping does, relative to the state `w` it starts from: the `matched` pairs
(id, entity) get the entity appended to system `s`'s `matchedEntities` (once
per pair, in enumeration order), each matched entity gets `s` appended to its
`memberSystems`, one `init` event is logged per match, and nothing else
changes. -/
def SysLoopOut (w w' : World) (s : Nat) (matched : List (String × Nat)) : Prop :=
  w'.log = w.log ++ matched.map (fun p => Event.init s p.2) ∧
  (∀ s' : Nat, s' ≠ s → w'.sys s' = w.sys s') ∧
  w'.sys s = { w.sys s with entities :=
      (w.sys s).entities ++ matched.map (fun p => p.2) } ∧
  (∀ r' : Nat, w'.ent r' = { w.ent r' with systems :=
      (w.ent r').systems ++
        (List.replicate ((matched.map (fun p => p.2)).count r') s) }) ∧
  w'.scene = w.scene ∧ w'.nextE = w.nextE ∧ w'.nextS = w.nextS

/-- Membership-level description of what `addComponentToEntity`'s scan over
the systems `sl` does, relative to the state `w` it starts from: a system
gains the entity exactly when it is scanned, did not already contain it and
its test passes; the entity's id and components are untouched by the scan,
and so is everything else. -/
def CompLoopMemOut (w w' : World) (r : Nat) (sl : List Nat) : Prop :=
  (∀ s' : Nat, w'.sys s' = { w.sys s' with entities := (w.sys s').entities ++
      (if s' ∈ sl ∧ r ∉ (w.sys s').entities ∧
          (w.sys s').test (w.ent r) = true then [r] else []) }) ∧
  (w'.ent r).id = (w.ent r).id ∧
  (w'.ent r).components = (w.ent r).components ∧
  (∀ r' : Nat, r' ≠ r → w'.ent r' = w.ent r') ∧
  w'.scene = w.scene ∧ w'.nextE = w.nextE ∧ w'.nextS = w.nextS

/-- Exact description of what `addComponentToEntity`'s scan does when the
scanned system list has no duplicates: the `fresh` systems (those not
already containing the entity whose test passes) each gain the entity once,
the entity gains each of them once in scan order, one `init` event is logged
per fresh match in scan order, and nothing else changes. -/
def CompLoopOut (w w' : World) (r : Nat) (fresh : List Nat) : Prop :=
  w'.log = w.log ++ fresh.map (fun s => Event.init s r) ∧
  w'.ent r = { w.ent r with systems := (w.ent r).systems ++ fresh } ∧
  (∀ r' : Nat, r' ≠ r → w'.ent r' = w.ent r') ∧
  (∀ s' : Nat, w'.sys s' = { w.sys s' with entities := (w.sys s').entities ++
      (if s' ∈ fresh then [r] else []) }) ∧
  w'.scene = w.scene ∧ w'.nextE = w.nextE ∧ w'.nextS = w.nextS

/-! ### Concrete material used by witnesses and counterexamples -/

/-- The "Position" component type of the spec's scenarios. -/
def cPos : ComponentType := { name := "Position", fields := [("x", 0), ("y", 0)] }

/-- A second component type. -/
def cVel : ComponentType := { name := "Velocity", fields := [("dx", 0)] }

/-- The paradigm system test of the spec: `entity.has("Position")`. -/
def testPos : EntityObj → Bool := fun e => e.has [cPos]

/-- A test that is true exactly on entities whose id is the empty string:
a test like any other, used to exhibit what `addEntity`'s scan lets a test
observe. -/
def testEmptyId : EntityObj → Bool := fun e => e.id == ""

/-- A trace exercising every mutating scene operation: a system, an entity
with "Position" matched on add, a fresh component, a `removeEntity` call
(which throws before mutating), and dispatches. -/
def opsC1 : List Op :=
  [Op.newSystem testPos ["update"], Op.newEntity [cPos], Op.addSystem 0,
   Op.addEntity 0 none, Op.addComponent 0 cVel, Op.removeEntity 0,
   Op.entityDispatch 0 "update", Op.sceneDispatch "update"]

/-- A scene with one "Position" system and one matched entity under the
generated id "0". -/
def opsC2 : List Op :=
  [Op.newSystem testPos [], Op.newEntity [cPos], Op.addSystem 0,
   Op.addEntity 0 none]

/-- The world reached by `opsC2`. -/
def wC2 : World := World.init.run opsC2

/-- An id collision: entity 0 is added under the generated id "0", then
entity 1 is added with the explicit id "0", overwriting the mapping entry
and orphaning entity 0. -/
def opsC3 : List Op :=
  [Op.newSystem testPos [], Op.addSystem 0, Op.newEntity [cPos],
   Op.addEntity 0 none, Op.newEntity [cPos], Op.addEntity 1 (some "0")]

/-- The world reached by `opsC3`. -/
def wC3 : World := World.init.run opsC3

/-- A sound trace: fresh ids only, componental monotone tests,
`addComponentToEntity` only on an entity in the scene. -/
def opsC3W : List Op :=
  [Op.newSystem testPos [], Op.newEntity [cPos], Op.addSystem 0,
   Op.addEntity 0 none, Op.addComponent 0 cVel]

/-- A scene with one "Position" system and a constructed (not yet added)
entity carrying "Position". -/
def wC4 : World :=
  World.init.run [Op.newSystem testPos ["update"], Op.addSystem 0,
    Op.newEntity [cPos]]

/-- Scenario 2 of the spec: an entity without "Position" added to a scene,
then the "Position" system added — no match yet. -/
def wC5 : World :=
  World.init.run [Op.newSystem testPos [], Op.newEntity [],
    Op.addEntity 0 none, Op.addSystem 0]

/-- A scene whose matched entity can be dispatched to. -/
def wC6 : World := wC2

/-- A system whose test observes the entity id being empty, added to a
scene; an entity added with the explicit id "" is matched by it. -/
def opsC10 : List Op :=
  [Op.newSystem testEmptyId [], Op.addSystem 0, Op.newEntity [],
   Op.addEntity 0 (some "")]

/-- The world reached by `opsC10`. -/
def wC10 : World := World.init.run opsC10

/-- The component-less entity of the C9 counterexample. -/
def eC9 : EntityObj := EntityObj.new []

/-- An entity holding a "Position" instance. -/
def eC9b : EntityObj := EntityObj.new [cPos]

/-! ### Association-list lemmas -/

lemma objGet_nil {α : Type} (k : String) : objGet ([] : List (String × α)) k = none := rfl

lemma objGet_cons {α : Type} (p : String × α) (l : List (String × α)) (k : String) :
    objGet (p :: l) k = if p.1 == k then some p.2 else objGet l k := by
  by_cases h : p.1 == k <;> simp [objGet, List.find?, h]

lemma objGet_objSet_self {α : Type} (l : List (String × α)) (k : String) (v : α) :
    objGet (objSet l k v) k = some v := by
  induction l with
  | nil => simp [objSet, objGet_cons]
  | cons p l ih =>
    by_cases h : p.1 == k
    · simp [objSet, h, objGet_cons]
    · simp [objSet, h, objGet_cons, ih]

lemma objGet_objSet_ne {α : Type} (l : List (String × α)) (k k' : String) (v : α)
    (h : k' ≠ k) : objGet (objSet l k v) k' = objGet l k' := by
  induction l with
  | nil =>
    have : (k == k') = false := by simp [Ne.symm h]
    simp [objSet, objGet_cons, this]
  | cons p l ih =>
    by_cases hp : p.1 == k
    · have : (k == k') = false := by simp [Ne.symm h]
      have hp' : p.1 = k := by simpa using hp
      simp [objSet, hp, objGet_cons, this, hp']
    · simp [objSet, hp, objGet_cons, ih]

lemma objSet_fresh {α : Type} (l : List (String × α)) (k : String) (v : α)
    (h : objGet l k = none) : objSet l k v = l ++ [(k, v)] := by
  induction l with
  | nil => simp [objSet]
  | cons p l ih =>
    rw [objGet_cons] at h
    by_cases hp : p.1 == k
    · simp [hp] at h
    · simp only [hp, if_false] at h
      simp [objSet, hp, ih h]

lemma objSet_found_self {α : Type} (l : List (String × α)) (k : String) (v : α)
    (h : objGet l k = some v) : objSet l k v = l := by
  induction l with
  | nil => simp [objGet] at h
  | cons p l ih =>
    rw [objGet_cons] at h
    by_cases hp : p.1 == k
    · simp only [hp, if_true, Option.some.injEq] at h
      have hp' : p.1 = k := by simpa using hp
      simp [objSet, hp, hp'.symm, h.symm]
    · simp only [hp, if_false] at h
      simp [objSet, hp, ih h]

lemma snd_mem_objSet {α : Type} {l : List (String × α)} {k : String} {v : α}
    {q : String × α} (h : q ∈ objSet l k v) : q ∈ l ∨ q.2 = v := by
  induction l with
  | nil =>
    simp only [objSet, List.mem_singleton] at h
    exact Or.inr (by rw [h])
  | cons p l ih =>
    by_cases hp : p.1 == k
    · simp only [objSet, hp, if_true, List.mem_cons] at h
      rcases h with h | h
      · exact Or.inr (by rw [h])
      · exact Or.inl (List.mem_cons_of_mem _ h)
    · simp only [objSet, hp, Bool.false_eq_true, if_false, List.mem_cons] at h
      rcases h with h | h
      · exact Or.inl (h ▸ List.mem_cons_self _ _)
      · rcases ih h with h' | h'
        · exact Or.inl (List.mem_cons_of_mem _ h')
        · exact Or.inr h'

lemma objHas_iff_mem_keys {α : Type} (l : List (String × α)) (k : String) :
    objHas l k = true ↔ k ∈ l.map Prod.fst := by
  induction l with
  | nil => simp [objHas, objGet]
  | cons p l ih =>
    by_cases hp : p.1 == k
    · have hp' : p.1 = k := by simpa using hp
      simp [objHas, objGet_cons, hp, hp']
    · have hp' : ¬ p.1 = k := by simpa using hp
      simp only [objHas, objGet_cons, hp, if_false] at *
      simp [ih, Ne.symm hp']

/-! ### World accessor lemmas -/

@[simp] lemma ent_setEnt_self (w : World) (r : Nat) (e : EntityObj) :
    (w.setEnt r e).ent r = e := by
  simp [World.setEnt, World.ent, Function.update_same]

lemma ent_setEnt_ne (w : World) {r r' : Nat} (e : EntityObj) (h : r' ≠ r) :
    (w.setEnt r e).ent r' = w.ent r' := by
  simp [World.setEnt, World.ent, Function.update_noteq h]

@[simp] lemma sys_setEnt (w : World) (r : Nat) (e : EntityObj) (s : Nat) :
    (w.setEnt r e).sys s = w.sys s := rfl

@[simp] lemma scene_setEnt (w : World) (r : Nat) (e : EntityObj) :
    (w.setEnt r e).scene = w.scene := rfl

@[simp] lemma log_setEnt (w : World) (r : Nat) (e : EntityObj) :
    (w.setEnt r e).log = w.log := rfl

@[simp] lemma nextE_setEnt (w : World) (r : Nat) (e : EntityObj) :
    (w.setEnt r e).nextE = w.nextE := rfl

@[simp] lemma nextS_setEnt (w : World) (r : Nat) (e : EntityObj) :
    (w.setEnt r e).nextS = w.nextS := rfl

@[simp] lemma sys_setSys_self (w : World) (s : Nat) (sy : SystemObj) :
    (w.setSys s sy).sys s = sy := by
  simp [World.setSys, World.sys, Function.update_same]

lemma sys_setSys_ne (w : World) {s s' : Nat} (sy : SystemObj) (h : s' ≠ s) :
    (w.setSys s sy).sys s' = w.sys s' := by
  simp [World.setSys, World.sys, Function.update_noteq h]

@[simp] lemma ent_setSys (w : World) (s : Nat) (sy : SystemObj) (r : Nat) :
    (w.setSys s sy).ent r = w.ent r := rfl

@[simp] lemma scene_setSys (w : World) (s : Nat) (sy : SystemObj) :
    (w.setSys s sy).scene = w.scene := rfl

@[simp] lemma log_setSys (w : World) (s : Nat) (sy : SystemObj) :
    (w.setSys s sy).log = w.log := rfl

@[simp] lemma nextE_setSys (w : World) (s : Nat) (sy : SystemObj) :
    (w.setSys s sy).nextE = w.nextE := rfl

@[simp] lemma nextS_setSys (w : World) (s : Nat) (sy : SystemObj) :
    (w.setSys s sy).nextS = w.nextS := rfl

@[simp] lemma ent_logEv (w : World) (ev : Event) (r : Nat) :
    (w.logEv ev).ent r = w.ent r := rfl

@[simp] lemma sys_logEv (w : World) (ev : Event) (s : Nat) :
    (w.logEv ev).sys s = w.sys s := rfl

@[simp] lemma scene_logEv (w : World) (ev : Event) :
    (w.logEv ev).scene = w.scene := rfl

@[simp] lemma log_logEv (w : World) (ev : Event) :
    (w.logEv ev).log = w.log ++ [ev] := rfl

@[simp] lemma nextE_logEv (w : World) (ev : Event) :
    (w.logEv ev).nextE = w.nextE := rfl

@[simp] lemma nextS_logEv (w : World) (ev : Event) :
    (w.logEv ev).nextS = w.nextS := rfl

/-! ### `matchInit` projections -/

@[simp] lemma matchInit_ent_self (w : World) (s r : Nat) :
    (w.matchInit s r).ent r =
      { w.ent r with systems := (w.ent r).systems ++ [s] } := by
  simp [World.matchInit]

lemma matchInit_ent_ne (w : World) {s r r' : Nat} (h : r' ≠ r) :
    (w.matchInit s r).ent r' = w.ent r' := by
  simp [World.matchInit, ent_setEnt_ne _ _ h]

@[simp] lemma matchInit_sys_self (w : World) (s r : Nat) :
    (w.matchInit s r).sys s =
      { w.sys s with entities := (w.sys s).entities ++ [r] } := by
  simp [World.matchInit]

lemma matchInit_sys_ne (w : World) {s r s' : Nat} (h : s' ≠ s) :
    (w.matchInit s r).sys s' = w.sys s' := by
  simp [World.matchInit, sys_setSys_ne _ _ h]

@[simp] lemma matchInit_scene (w : World) (s r : Nat) :
    (w.matchInit s r).scene = w.scene := by
  simp [World.matchInit]

@[simp] lemma matchInit_log (w : World) (s r : Nat) :
    (w.matchInit s r).log = w.log ++ [Event.init s r] := by
  simp [World.matchInit]

@[simp] lemma matchInit_nextE (w : World) (s r : Nat) :
    (w.matchInit s r).nextE = w.nextE := by
  simp [World.matchInit]

@[simp] lemma matchInit_nextS (w : World) (s r : Nat) :
    (w.matchInit s r).nextS = w.nextS := by
  simp [World.matchInit]

lemma matchInit_sys_test (w : World) (s r s' : Nat) :
    ((w.matchInit s r).sys s').test = (w.sys s').test := by
  by_cases h : s' = s
  · subst h; simp
  · rw [matchInit_sys_ne _ h]

lemma matchInit_ent_id (w : World) (s r r' : Nat) :
    ((w.matchInit s r).ent r').id = (w.ent r').id := by
  by_cases h : r' = r
  · subst h; simp
  · rw [matchInit_ent_ne _ h]

lemma matchInit_ent_components (w : World) (s r r' : Nat) :
    ((w.matchInit s r).ent r').components = (w.ent r').components := by
  by_cases h : r' = r
  · subst h; simp
  · rw [matchInit_ent_ne _ h]

/-! ### The `addEntity` matching loop -/

lemma entLoop_spec (sl : List Nat) (r : Nat) (w : World)
    (hc : ∀ s ∈ sl, Componental (w.sys s).test) :
    MatchLoopOut w (sl.foldl (fun acc s => acc.entMatchStep r s) w) r
      (sl.filter (fun s => (w.sys s).test (w.ent r))) := by
  induction sl generalizing w with
  | nil =>
    refine ⟨by simp, by simp, fun r' _ => rfl, fun s' => by simp, rfl, rfl, rfl⟩
  | cons s sl ih =>
    rw [List.foldl_cons]
    by_cases ht : (w.sys s).test (w.ent r) = true
    · have hstep : w.entMatchStep r s = w.matchInit s r := by
        simp [World.entMatchStep, ht]
      have hc2 : ∀ s' ∈ sl, Componental ((w.matchInit s r).sys s').test := by
        intro s' hs'
        rw [matchInit_sys_test]
        exact hc s' (List.mem_cons_of_mem _ hs')
      have hfe : sl.filter
            (fun s' => ((w.matchInit s r).sys s').test ((w.matchInit s r).ent r)) =
          sl.filter (fun s' => (w.sys s').test (w.ent r)) := by
        apply List.filter_congr
        intro s' hs'
        rw [matchInit_sys_test]
        exact hc s' (List.mem_cons_of_mem _ hs') _ _
          (matchInit_ent_id w s r r) (matchInit_ent_components w s r r)
      have hfl : (s :: sl).filter (fun s' => (w.sys s').test (w.ent r)) =
          s :: sl.filter (fun s' => (w.sys s').test (w.ent r)) := by
        rw [List.filter_cons_of_pos]
        exact ht
      obtain ⟨h1, h2, h3, h4, h5, h6, h7⟩ := ih (w.matchInit s r) hc2
      rw [hfe] at h1 h2 h4
      rw [hstep, hfl]
      refine ⟨?_, ?_, ?_, ?_, ?_, ?_, ?_⟩
      · rw [h1, matchInit_log, List.map_cons, List.append_assoc,
          List.singleton_append]
      · rw [h2, matchInit_ent_self]
        simp [List.append_assoc]
      · intro r' hr'
        rw [h3 r' hr', matchInit_ent_ne _ hr']
      · intro s'
        rw [h4 s']
        by_cases hss : s' = s
        · subst hss
          rw [matchInit_sys_self]
          simp [List.count_cons_self, List.replicate_succ, List.append_assoc]
        · rw [matchInit_sys_ne _ hss]
          have : (s :: sl.filter (fun s'' => (w.sys s'').test (w.ent r))).count s' =
              (sl.filter (fun s'' => (w.sys s'').test (w.ent r))).count s' := by
            rw [List.count_cons]
            simp [Ne.symm hss]
          rw [this]
      · rw [h5, matchInit_scene]
      · rw [h6, matchInit_nextE]
      · rw [h7, matchInit_nextS]
    · have hstep : w.entMatchStep r s = w := by
        simp [World.entMatchStep, ht]
      have hfl : (s :: sl).filter (fun s' => (w.sys s').test (w.ent r)) =
          sl.filter (fun s' => (w.sys s').test (w.ent r)) := by
        rw [List.filter_cons_of_neg]
        simp [ht]
      rw [hstep, hfl]
      exact ih w (fun s' hs' => hc s' (List.mem_cons_of_mem _ hs'))

/-! ### The `addSystem` entity scan -/

lemma sysLoop_spec (pl : List (String × Nat)) (s : Nat) (w : World)
    (hc : Componental (w.sys s).test) :
    SysLoopOut w (pl.foldl (fun acc p => acc.sysMatchStep s p) w) s
      (pl.filter (fun p => (w.sys s).test (w.ent p.2))) := by
  induction pl generalizing w with
  | nil =>
    refine ⟨by simp, fun s' _ => rfl, by simp, fun r' => by simp, rfl, rfl, rfl⟩
  | cons p pl ih =>
    rw [List.foldl_cons]
    by_cases ht : (w.sys s).test (w.ent p.2) = true
    · have hstep : w.sysMatchStep s p = w.matchInit s p.2 := by
        simp [World.sysMatchStep, ht]
      have hc2 : Componental ((w.matchInit s p.2).sys s).test := by
        rw [matchInit_sys_test]; exact hc
      have hfe : pl.filter
            (fun q => ((w.matchInit s p.2).sys s).test
              ((w.matchInit s p.2).ent q.2)) =
          pl.filter (fun q => (w.sys s).test (w.ent q.2)) := by
        apply List.filter_congr
        intro q _
        rw [matchInit_sys_test]
        exact hc _ _ (matchInit_ent_id w s p.2 q.2)
          (matchInit_ent_components w s p.2 q.2)
      have hfl : (p :: pl).filter (fun q => (w.sys s).test (w.ent q.2)) =
          p :: pl.filter (fun q => (w.sys s).test (w.ent q.2)) := by
        rw [List.filter_cons_of_pos]; exact ht
      obtain ⟨h1, h2, h3, h4, h5, h6, h7⟩ := ih (w.matchInit s p.2) hc2
      rw [hfe] at h1 h3 h4
      rw [hstep, hfl]
      refine ⟨?_, ?_, ?_, ?_, ?_, ?_, ?_⟩
      · rw [h1, matchInit_log, List.map_cons, List.append_assoc,
          List.singleton_append]
      · intro s' hs'
        rw [h2 s' hs', matchInit_sys_ne _ hs']
      · rw [h3, matchInit_sys_self]
        simp [List.append_assoc]
      · intro r'
        rw [h4 r']
        by_cases hrr : r' = p.2
        · subst hrr
          rw [matchInit_ent_self]
          simp [List.count_cons_self, List.replicate_succ, List.append_assoc]
        · rw [matchInit_ent_ne _ hrr]
          have : ((p :: pl.filter (fun q => (w.sys s).test (w.ent q.2))).map
                (fun q => q.2)).count r' =
              ((pl.filter (fun q => (w.sys s).test (w.ent q.2))).map
                (fun q => q.2)).count r' := by
            rw [List.map_cons, List.count_cons]
            simp [Ne.symm hrr]
          rw [this]
      · rw [h5, matchInit_scene]
      · rw [h6, matchInit_nextE]
      · rw [h7, matchInit_nextS]
    · have hstep : w.sysMatchStep s p = w := by
        simp [World.sysMatchStep, ht]
      have hfl : (p :: pl).filter (fun q => (w.sys s).test (w.ent q.2)) =
          pl.filter (fun q => (w.sys s).test (w.ent q.2)) := by
        rw [List.filter_cons_of_neg]; simp [ht]
      rw [hstep, hfl]
      exact ih w hc

/-! ### The `addComponentToEntity` matching loop -/

lemma compLoop_mem_spec (sl : List Nat) (r : Nat) (w : World)
    (hc : ∀ s ∈ sl, Componental (w.sys s).test) :
    CompLoopMemOut w (sl.foldl (fun acc s => acc.compMatchStep r s) w) r sl := by
  induction sl generalizing w with
  | nil =>
    refine ⟨fun s' => by simp, rfl, rfl, fun r' _ => rfl, rfl, rfl, rfl⟩
  | cons s sl ih =>
    rw [List.foldl_cons]
    by_cases hm : r ∈ (w.sys s).entities
    · have hstep : w.compMatchStep r s = w := by
        simp [World.compMatchStep, hm]
      rw [hstep]
      obtain ⟨h1, h2, h3, h4, h5, h6, h7⟩ :=
        ih w (fun s' hs' => hc s' (List.mem_cons_of_mem _ hs'))
      refine ⟨?_, h2, h3, h4, h5, h6, h7⟩
      intro s'
      rw [h1 s']
      by_cases hss : s' = s
      · subst hss
        have hx : ¬ (s' ∈ s' :: sl ∧ r ∉ (w.sys s').entities ∧
            (w.sys s').test (w.ent r) = true) := fun hcon => hcon.2.1 hm
        have hy : ¬ (s' ∈ sl ∧ r ∉ (w.sys s').entities ∧
            (w.sys s').test (w.ent r) = true) := fun hcon => hcon.2.1 hm
        rw [if_neg hx, if_neg hy]
      · have : (s' ∈ s :: sl ∧ r ∉ (w.sys s').entities ∧
              (w.sys s').test (w.ent r) = true) ↔
            (s' ∈ sl ∧ r ∉ (w.sys s').entities ∧
              (w.sys s').test (w.ent r) = true) := by
          constructor
          · rintro ⟨ha, hb, hcc⟩
            exact ⟨(List.mem_cons.mp ha).resolve_left hss, hb, hcc⟩
          · rintro ⟨ha, hb, hcc⟩
            exact ⟨List.mem_cons_of_mem _ ha, hb, hcc⟩
        rw [if_congr this rfl rfl]
    · by_cases ht : (w.sys s).test (w.ent r) = true
      · have hstep : w.compMatchStep r s = w.matchInit s r := by
          simp [World.compMatchStep, hm, ht]
        rw [hstep]
        have hc2 : ∀ s' ∈ sl, Componental ((w.matchInit s r).sys s').test := by
          intro s' hs'
          rw [matchInit_sys_test]
          exact hc s' (List.mem_cons_of_mem _ hs')
        obtain ⟨h1, h2, h3, h4, h5, h6, h7⟩ := ih (w.matchInit s r) hc2
        refine ⟨?_, ?_, ?_, ?_, ?_, ?_, ?_⟩
        · intro s'
          rw [h1 s']
          by_cases hss : s' = s
          · subst hss
            rw [matchInit_sys_self]
            have hx : ¬ (s' ∈ sl ∧
                r ∉ ((w.matchInit s' r).sys s').entities ∧
                ((w.matchInit s' r).sys s').test ((w.matchInit s' r).ent r) =
                  true) := by
              rintro ⟨-, hb, -⟩
              exact hb (by simp)
            rw [matchInit_sys_self] at hx
            have hy : s' ∈ s' :: sl ∧ r ∉ (w.sys s').entities ∧
                (w.sys s').test (w.ent r) = true :=
              ⟨List.mem_cons_self _ _, hm, ht⟩
            rw [if_neg hx, if_pos hy]
            simp
          · by_cases hsl : s' ∈ sl
            · have harg : ((w.matchInit s r).sys s').test
                    ((w.matchInit s r).ent r) =
                  (w.sys s').test (w.ent r) := by
                rw [matchInit_sys_test]
                exact hc s' (List.mem_cons_of_mem _ hsl) _ _
                  (matchInit_ent_id w s r r) (matchInit_ent_components w s r r)
              have hiff : (s' ∈ sl ∧ r ∉ ((w.matchInit s r).sys s').entities ∧
                    ((w.matchInit s r).sys s').test ((w.matchInit s r).ent r) =
                      true) ↔
                  (s' ∈ s :: sl ∧ r ∉ (w.sys s').entities ∧
                    (w.sys s').test (w.ent r) = true) := by
                rw [harg, matchInit_sys_ne _ hss]
                constructor
                · rintro ⟨ha, hb, hcc⟩
                  exact ⟨List.mem_cons_of_mem _ ha, hb, hcc⟩
                · rintro ⟨ha, hb, hcc⟩
                  exact ⟨(List.mem_cons.mp ha).resolve_left hss, hb, hcc⟩
              rw [if_congr hiff rfl rfl, matchInit_sys_ne _ hss]
            · have hx : ¬ (s' ∈ sl ∧
                  r ∉ ((w.matchInit s r).sys s').entities ∧
                  ((w.matchInit s r).sys s').test ((w.matchInit s r).ent r) =
                    true) := fun hcon => hsl hcon.1
              have hy : ¬ (s' ∈ s :: sl ∧ r ∉ (w.sys s').entities ∧
                  (w.sys s').test (w.ent r) = true) := fun hcon =>
                hsl ((List.mem_cons.mp hcon.1).resolve_left hss)
              rw [if_neg hx, if_neg hy, matchInit_sys_ne _ hss]
        · rw [h2, matchInit_ent_id]
        · rw [h3, matchInit_ent_components]
        · intro r' hr'
          rw [h4 r' hr', matchInit_ent_ne _ hr']
        · rw [h5, matchInit_scene]
        · rw [h6, matchInit_nextE]
        · rw [h7, matchInit_nextS]
      · have hstep : w.compMatchStep r s = w := by
          simp [World.compMatchStep, hm, ht]
        rw [hstep]
        obtain ⟨h1, h2, h3, h4, h5, h6, h7⟩ :=
          ih w (fun s' hs' => hc s' (List.mem_cons_of_mem _ hs'))
        refine ⟨?_, h2, h3, h4, h5, h6, h7⟩
        intro s'
        rw [h1 s']
        by_cases hss : s' = s
        · subst hss
          have hx : ¬ (s' ∈ s' :: sl ∧ r ∉ (w.sys s').entities ∧
              (w.sys s').test (w.ent r) = true) := fun hcon => ht hcon.2.2
          have hy : ¬ (s' ∈ sl ∧ r ∉ (w.sys s').entities ∧
              (w.sys s').test (w.ent r) = true) := fun hcon => ht hcon.2.2
          rw [if_neg hx, if_neg hy]
        · have : (s' ∈ s :: sl ∧ r ∉ (w.sys s').entities ∧
                (w.sys s').test (w.ent r) = true) ↔
              (s' ∈ sl ∧ r ∉ (w.sys s').entities ∧
                (w.sys s').test (w.ent r) = true) := by
            constructor
            · rintro ⟨ha, hb, hcc⟩
              exact ⟨(List.mem_cons.mp ha).resolve_left hss, hb, hcc⟩
            · rintro ⟨ha, hb, hcc⟩
              exact ⟨List.mem_cons_of_mem _ ha, hb, hcc⟩
          rw [if_congr this rfl rfl]

lemma compLoop_nodup_spec (sl : List Nat) (r : Nat) (w : World)
    (hnd : sl.Nodup) (hc : ∀ s ∈ sl, Componental (w.sys s).test) :
    CompLoopOut w (sl.foldl (fun acc s => acc.compMatchStep r s) w) r
      (sl.filter (fun s =>
        !(decide (r ∈ (w.sys s).entities)) && (w.sys s).test (w.ent r))) := by
  induction sl generalizing w with
  | nil =>
    refine ⟨by simp, by simp, fun r' _ => rfl, fun s' => by simp, rfl, rfl, rfl⟩
  | cons s sl ih =>
    rw [List.nodup_cons] at hnd
    obtain ⟨hns, hnd⟩ := hnd
    rw [List.foldl_cons]
    by_cases hm : r ∈ (w.sys s).entities
    · have hstep : w.compMatchStep r s = w := by
        simp [World.compMatchStep, hm]
      have hfl : (s :: sl).filter (fun s' =>
            !(decide (r ∈ (w.sys s').entities)) && (w.sys s').test (w.ent r)) =
          sl.filter (fun s' =>
            !(decide (r ∈ (w.sys s').entities)) && (w.sys s').test (w.ent r)) := by
        rw [List.filter_cons_of_neg]
        simp [hm]
      rw [hstep, hfl]
      exact ih w hnd (fun s' hs' => hc s' (List.mem_cons_of_mem _ hs'))
    · by_cases ht : (w.sys s).test (w.ent r) = true
      · have hstep : w.compMatchStep r s = w.matchInit s r := by
          simp [World.compMatchStep, hm, ht]
        have hc2 : ∀ s' ∈ sl, Componental ((w.matchInit s r).sys s').test := by
          intro s' hs'
          rw [matchInit_sys_test]
          exact hc s' (List.mem_cons_of_mem _ hs')
        have hfe : sl.filter (fun s' =>
              !(decide (r ∈ ((w.matchInit s r).sys s').entities)) &&
                ((w.matchInit s r).sys s').test ((w.matchInit s r).ent r)) =
            sl.filter (fun s' =>
              !(decide (r ∈ (w.sys s').entities)) &&
                (w.sys s').test (w.ent r)) := by
          apply List.filter_congr
          intro s' hs'
          have hne : s' ≠ s := fun h => hns (h ▸ hs')
          rw [matchInit_sys_ne _ hne]
          have harg : (w.sys s').test ((w.matchInit s r).ent r) =
              (w.sys s').test (w.ent r) :=
            hc s' (List.mem_cons_of_mem _ hs') _ _
              (matchInit_ent_id w s r r) (matchInit_ent_components w s r r)
          rw [harg]
        have hfl : (s :: sl).filter (fun s' =>
              !(decide (r ∈ (w.sys s').entities)) &&
                (w.sys s').test (w.ent r)) =
            s :: sl.filter (fun s' =>
              !(decide (r ∈ (w.sys s').entities)) &&
                (w.sys s').test (w.ent r)) := by
          rw [List.filter_cons_of_pos]
          simp [hm, ht]
        obtain ⟨h1, h2, h3, h4, h5, h6, h7⟩ := ih (w.matchInit s r) hnd hc2
        rw [hfe] at h1 h2 h4
        rw [hstep, hfl]
        have hfresh_sub : ∀ s'' ∈ sl.filter (fun s' =>
            !(decide (r ∈ (w.sys s').entities)) &&
              (w.sys s').test (w.ent r)), s'' ∈ sl :=
          fun s'' hs'' => List.mem_of_mem_filter hs''
        refine ⟨?_, ?_, ?_, ?_, ?_, ?_, ?_⟩
        · rw [h1, matchInit_log, List.map_cons, List.append_assoc,
            List.singleton_append]
        · rw [h2, matchInit_ent_self]
          simp [List.append_assoc]
        · intro r' hr'
          rw [h3 r' hr', matchInit_ent_ne _ hr']
        · intro s'
          rw [h4 s']
          by_cases hss : s' = s
          · subst hss
            rw [matchInit_sys_self]
            have hnf : s' ∉ sl.filter (fun s'' =>
                !(decide (r ∈ (w.sys s'').entities)) &&
                  (w.sys s'').test (w.ent r)) :=
              fun hcon => hns (hfresh_sub _ hcon)
            rw [if_neg hnf, if_pos (List.mem_cons_self _ _)]
            simp
          · rw [matchInit_sys_ne _ hss]
            have hiff : s' ∈ sl.filter (fun s'' =>
                  !(decide (r ∈ (w.sys s'').entities)) &&
                    (w.sys s'').test (w.ent r)) ↔
                s' ∈ s :: sl.filter (fun s'' =>
                  !(decide (r ∈ (w.sys s'').entities)) &&
                    (w.sys s'').test (w.ent r)) := by
              constructor
              · exact fun h => List.mem_cons_of_mem _ h
              · exact fun h => (List.mem_cons.mp h).resolve_left hss
            rw [if_congr hiff rfl rfl]
        · rw [h5, matchInit_scene]
        · rw [h6, matchInit_nextE]
        · rw [h7, matchInit_nextS]
      · have hstep : w.compMatchStep r s = w := by
          simp [World.compMatchStep, hm, ht]
        have hfl : (s :: sl).filter (fun s' =>
              !(decide (r ∈ (w.sys s').entities)) &&
                (w.sys s').test (w.ent r)) =
            sl.filter (fun s' =>
              !(decide (r ∈ (w.sys s').entities)) &&
                (w.sys s').test (w.ent r)) := by
          rw [List.filter_cons_of_neg]
          simp [ht]
        rw [hstep, hfl]
        exact ih w hnd (fun s' hs' => hc s' (List.mem_cons_of_mem _ hs'))

/-! ### Projections of the store/attach halves and full operations -/

lemma store_sys (w : World) (r : Nat) (i : Option String) (s : Nat) :
    (w.addEntityStore r i).sys s = w.sys s := by
  cases i <;> rfl

lemma store_ent_self (w : World) (r : Nat) (i : Option String) :
    (w.addEntityStore r i).ent r = { w.ent r with id := w.assignedId i } := by
  cases i <;> simp [World.addEntityStore, World.generateUID, World.assignedId,
    World.ent, World.setEnt, Function.update_same]

lemma store_ent_ne (w : World) {r r' : Nat} (i : Option String) (h : r' ≠ r) :
    (w.addEntityStore r i).ent r' = w.ent r' := by
  cases i <;> simp [World.addEntityStore, World.generateUID,
    World.ent, World.setEnt, Function.update_noteq h]

lemma store_scene_entities (w : World) (r : Nat) (i : Option String) :
    (w.addEntityStore r i).scene.entities =
      objSet w.scene.entities (w.assignedId i) r := by
  cases i <;> simp [World.addEntityStore, World.generateUID, World.assignedId,
    World.setEnt]

lemma store_scene_systems (w : World) (r : Nat) (i : Option String) :
    (w.addEntityStore r i).scene.systems = w.scene.systems := by
  cases i <;> rfl

lemma store_scene_count (w : World) (r : Nat) (i : Option String) :
    (w.addEntityStore r i).scene.count =
      (match i with | none => w.scene.count + 1 | some _ => w.scene.count) := by
  cases i <;> rfl

lemma store_log (w : World) (r : Nat) (i : Option String) :
    (w.addEntityStore r i).log = w.log := by
  cases i <;> rfl

lemma store_nextE (w : World) (r : Nat) (i : Option String) :
    (w.addEntityStore r i).nextE = w.nextE := by
  cases i <;> rfl

lemma store_nextS (w : World) (r : Nat) (i : Option String) :
    (w.addEntityStore r i).nextS = w.nextS := by
  cases i <;> rfl

lemma attach_sys_self (w : World) (s : Nat) :
    (w.addSystemAttach s).sys s = { w.sys s with scene := true } := by
  simp [World.addSystemAttach, World.setSys, World.sys, Function.update_same]

lemma attach_sys_ne (w : World) {s s' : Nat} (h : s' ≠ s) :
    (w.addSystemAttach s).sys s' = w.sys s' := by
  simp [World.addSystemAttach, World.setSys, World.sys,
    Function.update_noteq h]

lemma attach_sys_test (w : World) (s s' : Nat) :
    ((w.addSystemAttach s).sys s').test = (w.sys s').test := by
  by_cases h : s' = s
  · subst h; rw [attach_sys_self]
  · rw [attach_sys_ne _ h]

lemma attach_ent (w : World) (s r : Nat) :
    (w.addSystemAttach s).ent r = w.ent r := rfl

lemma attach_scene_entities (w : World) (s : Nat) :
    (w.addSystemAttach s).scene.entities = w.scene.entities := rfl

lemma attach_scene_systems (w : World) (s : Nat) :
    (w.addSystemAttach s).scene.systems = w.scene.systems ++ [s] := rfl

lemma attach_scene_count (w : World) (s : Nat) :
    (w.addSystemAttach s).scene.count = w.scene.count := rfl

lemma attach_log (w : World) (s : Nat) :
    (w.addSystemAttach s).log = w.log := rfl

lemma attach_nextE (w : World) (s : Nat) :
    (w.addSystemAttach s).nextE = w.nextE := rfl

lemma attach_nextS (w : World) (s : Nat) :
    (w.addSystemAttach s).nextS = w.nextS := rfl

/-- `addEntity` relative to its store half: the scan matches exactly the
systems whose test passes on the stored entity (the entity carrying its
newly assigned id). -/
lemma addEntity_out (w : World) (r : Nat) (i : Option String)
    (hc : ∀ s ∈ w.scene.systems, Componental (w.sys s).test) :
    MatchLoopOut (w.addEntityStore r i) (w.addEntity r i).1 r
      (w.scene.systems.filter
        (fun s => (w.sys s).test { w.ent r with id := w.assignedId i })) := by
  have h1 : (w.addEntity r i).1 =
      (w.addEntityStore r i).scene.systems.foldl
        (fun acc s => acc.entMatchStep r s) (w.addEntityStore r i) := rfl
  have hc1 : ∀ s ∈ (w.addEntityStore r i).scene.systems,
      Componental ((w.addEntityStore r i).sys s).test := by
    intro s hs
    rw [store_sys]
    rw [store_scene_systems] at hs
    exact hc s hs
  have h2 := entLoop_spec ((w.addEntityStore r i).scene.systems) r
    (w.addEntityStore r i) hc1
  rw [h1]
  have hfe : (w.addEntityStore r i).scene.systems.filter
        (fun s => ((w.addEntityStore r i).sys s).test
          ((w.addEntityStore r i).ent r)) =
      w.scene.systems.filter
        (fun s => (w.sys s).test { w.ent r with id := w.assignedId i }) := by
    rw [store_scene_systems]
    apply List.filter_congr
    intro s _
    rw [store_sys, store_ent_self]
  rw [hfe] at h2
  exact h2

/-- `addSystem` relative to its attach half: the scan matches exactly the
entity-mapping pairs whose entity passes the new system's test. -/
lemma addSystem_out (w : World) (s : Nat)
    (hc : Componental (w.sys s).test) :
    SysLoopOut (w.addSystemAttach s) (w.addSystem s) s
      (w.scene.entities.filter (fun p => (w.sys s).test (w.ent p.2))) := by
  have h1 : w.addSystem s =
      (w.addSystemAttach s).scene.entities.foldl
        (fun acc p => acc.sysMatchStep s p) (w.addSystemAttach s) := rfl
  have hc1 : Componental ((w.addSystemAttach s).sys s).test := by
    rw [attach_sys_test]; exact hc
  have h2 := sysLoop_spec ((w.addSystemAttach s).scene.entities) s
    (w.addSystemAttach s) hc1
  rw [h1]
  have hfe : (w.addSystemAttach s).scene.entities.filter
        (fun p => ((w.addSystemAttach s).sys s).test
          ((w.addSystemAttach s).ent p.2)) =
      w.scene.entities.filter (fun p => (w.sys s).test (w.ent p.2)) := by
    rw [attach_scene_entities]
    apply List.filter_congr
    intro p _
    rw [attach_sys_test, attach_ent]
  rw [hfe] at h2
  exact h2

/-- `addComponentToEntity` relative to its `entity.add` half,
membership-level version (no duplicate-freeness assumed). -/
lemma addComponent_mem_out (w : World) (r : Nat) (c : ComponentType)
    (hc : ∀ s ∈ w.scene.systems, Componental (w.sys s).test) :
    CompLoopMemOut (w.setEnt r ((w.ent r).add c))
      (w.addComponentToEntity r c) r w.scene.systems := by
  have h1 : w.addComponentToEntity r c =
      (w.setEnt r ((w.ent r).add c)).scene.systems.foldl
        (fun acc s => acc.compMatchStep r s)
        (w.setEnt r ((w.ent r).add c)) := rfl
  have hc1 : ∀ s ∈ (w.setEnt r ((w.ent r).add c)).scene.systems,
      Componental ((w.setEnt r ((w.ent r).add c)).sys s).test := by
    intro s hs
    rw [sys_setEnt]
    exact hc s (by simpa using hs)
  have h2 := compLoop_mem_spec ((w.setEnt r ((w.ent r).add c)).scene.systems)
    r (w.setEnt r ((w.ent r).add c)) hc1
  rw [h1]
  have he : (w.setEnt r ((w.ent r).add c)).scene.systems =
      w.scene.systems := rfl
  rw [he] at h2
  exact h2

/-- `addComponentToEntity` relative to its `entity.add` half, exact version
under duplicate-freeness of the system list. -/
lemma addComponent_out (w : World) (r : Nat) (c : ComponentType)
    (hnd : w.scene.systems.Nodup)
    (hc : ∀ s ∈ w.scene.systems, Componental (w.sys s).test) :
    CompLoopOut (w.setEnt r ((w.ent r).add c))
      (w.addComponentToEntity r c) r
      (w.scene.systems.filter (fun s =>
        !(decide (r ∈ (w.sys s).entities)) &&
          (w.sys s).test ((w.ent r).add c))) := by
  have h1 : w.addComponentToEntity r c =
      (w.setEnt r ((w.ent r).add c)).scene.systems.foldl
        (fun acc s => acc.compMatchStep r s)
        (w.setEnt r ((w.ent r).add c)) := rfl
  have hc1 : ∀ s ∈ (w.setEnt r ((w.ent r).add c)).scene.systems,
      Componental ((w.setEnt r ((w.ent r).add c)).sys s).test := by
    intro s hs
    rw [sys_setEnt]
    exact hc s (by simpa using hs)
  have h2 := compLoop_nodup_spec
    ((w.setEnt r ((w.ent r).add c)).scene.systems) r
    (w.setEnt r ((w.ent r).add c)) (by simpa using hnd) hc1
  rw [h1]
  have hfe : (w.setEnt r ((w.ent r).add c)).scene.systems.filter (fun s =>
        !(decide (r ∈ ((w.setEnt r ((w.ent r).add c)).sys s).entities)) &&
          ((w.setEnt r ((w.ent r).add c)).sys s).test
            ((w.setEnt r ((w.ent r).add c)).ent r)) =
      w.scene.systems.filter (fun s =>
        !(decide (r ∈ (w.sys s).entities)) &&
          (w.sys s).test ((w.ent r).add c)) := by
    apply List.filter_congr
    intro s _
    rw [sys_setEnt, ent_setEnt_self]
  rw [hfe] at h2
  exact h2

/-- `Entity.dispatch` only appends hook events: one per member system that
has a callable method of the dispatched name, in membership order. -/
lemma entityDispatch_out (w : World) (r : Nat) (fn : String) :
    (w.entityDispatch r fn).log =
      w.log ++ (((w.ent r).systems.filter
        (fun s => (w.sys s).hasHook fn)).map (fun s => Event.hook fn s r)) ∧
    (w.entityDispatch r fn).ents = w.ents ∧
    (w.entityDispatch r fn).syss = w.syss ∧
    (w.entityDispatch r fn).scene = w.scene ∧
    (w.entityDispatch r fn).nextE = w.nextE ∧
    (w.entityDispatch r fn).nextS = w.nextS := by
  have main : ∀ (sl : List Nat) (w0 : World),
      (sl.foldl (fun acc s =>
          if (acc.sys s).hasHook fn then acc.logEv (Event.hook fn s r)
          else acc) w0).log =
        w0.log ++ ((sl.filter (fun s => (w0.sys s).hasHook fn)).map
          (fun s => Event.hook fn s r)) ∧
      (sl.foldl (fun acc s =>
          if (acc.sys s).hasHook fn then acc.logEv (Event.hook fn s r)
          else acc) w0).ents = w0.ents ∧
      (sl.foldl (fun acc s =>
          if (acc.sys s).hasHook fn then acc.logEv (Event.hook fn s r)
          else acc) w0).syss = w0.syss ∧
      (sl.foldl (fun acc s =>
          if (acc.sys s).hasHook fn then acc.logEv (Event.hook fn s r)
          else acc) w0).scene = w0.scene ∧
      (sl.foldl (fun acc s =>
          if (acc.sys s).hasHook fn then acc.logEv (Event.hook fn s r)
          else acc) w0).nextE = w0.nextE ∧
      (sl.foldl (fun acc s =>
          if (acc.sys s).hasHook fn then acc.logEv (Event.hook fn s r)
          else acc) w0).nextS = w0.nextS := by
    intro sl
    induction sl with
    | nil => intro w0; exact ⟨by simp, rfl, rfl, rfl, rfl, rfl⟩
    | cons s sl ih =>
      intro w0
      rw [List.foldl_cons]
      by_cases hh : (w0.sys s).hasHook fn = true
      · obtain ⟨g1, g2, g3, g4, g5, g6⟩ := ih (w0.logEv (Event.hook fn s r))
        have hsys : ∀ s', (w0.logEv (Event.hook fn s r)).sys s' = w0.sys s' :=
          fun s' => rfl
        have hfe : sl.filter
              (fun s' => ((w0.logEv (Event.hook fn s r)).sys s').hasHook fn) =
            sl.filter (fun s' => (w0.sys s').hasHook fn) := by
          apply List.filter_congr
          intro s' _
          rw [hsys]
        rw [if_pos hh]
        rw [hfe] at g1
        refine ⟨?_, g2, g3, g4, g5, g6⟩
        have hflt : (s :: sl).filter (fun s' => (w0.sys s').hasHook fn) =
            s :: sl.filter (fun s' => (w0.sys s').hasHook fn) := by
          simp [List.filter_cons, hh]
        rw [g1, log_logEv, hflt, List.map_cons,
          List.append_assoc, List.singleton_append]
      · rw [if_neg hh]
        obtain ⟨g1, g2, g3, g4, g5, g6⟩ := ih w0
        refine ⟨?_, g2, g3, g4, g5, g6⟩
        have hflt : (s :: sl).filter (fun s' => (w0.sys s').hasHook fn) =
            sl.filter (fun s' => (w0.sys s').hasHook fn) := by
          simp only [List.filter_cons]
          simp [hh]
        rw [g1, hflt]
  exact main ((w.ent r).systems) w

/-- A fold whose body leaves the scene untouched leaves the scene
untouched. -/
lemma foldl_scene_eq {α : Type} (f : World → α → World)
    (h : ∀ (w : World) (x : α), (f w x).scene = w.scene) :
    ∀ (l : List α) (w : World), (l.foldl f w).scene = w.scene := by
  intro l
  induction l with
  | nil => intro w; rfl
  | cons x l ih => intro w; rw [List.foldl_cons, ih, h]

/-! ### Small auxiliary facts -/

lemma componentsOnly_componental {t : EntityObj → Bool}
    (h : ComponentsOnly t) : Componental t :=
  fun a b _ hcomp => h a b hcomp

lemma default_test_good :
    ComponentsOnly (({} : SystemObj)).test ∧
      MonotoneTest (({} : SystemObj)).test :=
  ⟨fun _ _ _ => rfl, fun _ _ h => by simp at h⟩

lemma new_foldl_systems (cs : List ComponentType) :
    ∀ e : EntityObj, (cs.foldl (fun e c => e.add c) e).systems = e.systems := by
  induction cs with
  | nil => intro e; rfl
  | cons c cs ih => intro e; rw [List.foldl_cons]; exact ih _

lemma new_foldl_id (cs : List ComponentType) :
    ∀ e : EntityObj, (cs.foldl (fun e c => e.add c) e).id = e.id := by
  induction cs with
  | nil => intro e; rfl
  | cons c cs ih => intro e; rw [List.foldl_cons]; exact ih _

lemma new_systems (cs : List ComponentType) :
    (EntityObj.new cs).systems = [] := new_foldl_systems cs _

lemma new_id (cs : List ComponentType) : (EntityObj.new cs).id = "" :=
  new_foldl_id cs _

lemma inScene_iff (w : World) (r : Nat) :
    w.inScene r = true ↔ ∃ p ∈ w.scene.entities, p.2 = r := by
  rw [World.inScene, List.any_eq_true]
  constructor
  · rintro ⟨p, hp, he⟩
    exact ⟨p, hp, by simpa using he⟩
  · rintro ⟨p, hp, he⟩
    exact ⟨p, hp, by simpa using he⟩

lemma not_inScene_of_ge (w : World) (r : Nat) (hb : SceneBounds w)
    (h : w.nextE ≤ r) : w.inScene r = false := by
  by_contra hc
  have : w.inScene r = true := by
    cases hx : w.inScene r
    · exact absurd hx hc
    · rfl
  obtain ⟨p, hp, he⟩ := (inScene_iff w r).mp this
  have := hb.1 p hp
  omega

lemma objHas_false_objGet {α : Type} (l : List (String × α)) (k : String)
    (h : objHas l k = false) : objGet l k = none := by
  rw [objHas] at h
  exact Option.not_isSome_iff_eq_none.mp (by simp [h])

lemma inScene_append (w : World) (l2 : List (String × Nat)) (r : Nat) :
    ({ w with scene := { w.scene with
        entities := w.scene.entities ++ l2 } } : World).inScene r =
      (w.inScene r || l2.any (fun p => p.2 == r)) := by
  simp [World.inScene, List.any_append]

/-! ### Existential loop descriptions (no assumption on the tests) -/

lemma entLoop_pairs (sl : List Nat) (r : Nat) (w : World) :
    ∃ M : List Nat, (∀ x ∈ M, x ∈ sl) ∧
      MatchLoopOut w (sl.foldl (fun acc s => acc.entMatchStep r s) w) r M := by
  induction sl generalizing w with
  | nil =>
    exact ⟨[], by simp, by simp, by simp, fun r' _ => rfl,
      fun s' => by simp, rfl, rfl, rfl⟩
  | cons s sl ih =>
    rw [List.foldl_cons]
    by_cases ht : (w.sys s).test (w.ent r) = true
    · have hstep : w.entMatchStep r s = w.matchInit s r := by
        simp [World.entMatchStep, ht]
      rw [hstep]
      obtain ⟨M, hsub, h1, h2, h3, h4, h5, h6, h7⟩ := ih (w.matchInit s r)
      refine ⟨s :: M, ?_, ?_, ?_, ?_, ?_, ?_, ?_, ?_⟩
      · intro x hx
        rcases List.mem_cons.mp hx with h | h
        · exact h ▸ List.mem_cons_self _ _
        · exact List.mem_cons_of_mem _ (hsub x h)
      · rw [h1, matchInit_log, List.map_cons, List.append_assoc,
          List.singleton_append]
      · rw [h2, matchInit_ent_self]
        simp [List.append_assoc]
      · intro r' hr'
        rw [h3 r' hr', matchInit_ent_ne _ hr']
      · intro s'
        rw [h4 s']
        by_cases hss : s' = s
        · subst hss
          rw [matchInit_sys_self]
          simp [List.count_cons_self, List.replicate_succ, List.append_assoc]
        · rw [matchInit_sys_ne _ hss]
          have : (s :: M).count s' = M.count s' := by
            rw [List.count_cons]
            simp [Ne.symm hss]
          rw [this]
      · rw [h5, matchInit_scene]
      · rw [h6, matchInit_nextE]
      · rw [h7, matchInit_nextS]
    · have hstep : w.entMatchStep r s = w := by
        simp [World.entMatchStep, ht]
      rw [hstep]
      obtain ⟨M, hsub, hout⟩ := ih w
      exact ⟨M, fun x hx => List.mem_cons_of_mem _ (hsub x hx), hout⟩

lemma sysLoop_pairs (pl : List (String × Nat)) (s : Nat) (w : World) :
    ∃ M : List (String × Nat), (∀ x ∈ M, x ∈ pl) ∧
      SysLoopOut w (pl.foldl (fun acc p => acc.sysMatchStep s p) w) s M := by
  induction pl generalizing w with
  | nil =>
    exact ⟨[], by simp, by simp, fun s' _ => rfl, by simp,
      fun r' => by simp, rfl, rfl, rfl⟩
  | cons p pl ih =>
    rw [List.foldl_cons]
    by_cases ht : (w.sys s).test (w.ent p.2) = true
    · have hstep : w.sysMatchStep s p = w.matchInit s p.2 := by
        simp [World.sysMatchStep, ht]
      rw [hstep]
      obtain ⟨M, hsub, h1, h2, h3, h4, h5, h6, h7⟩ := ih (w.matchInit s p.2)
      refine ⟨p :: M, ?_, ?_, ?_, ?_, ?_, ?_, ?_, ?_⟩
      · intro x hx
        rcases List.mem_cons.mp hx with h | h
        · exact h ▸ List.mem_cons_self _ _
        · exact List.mem_cons_of_mem _ (hsub x h)
      · rw [h1, matchInit_log, List.map_cons, List.append_assoc,
          List.singleton_append]
      · intro s' hs'
        rw [h2 s' hs', matchInit_sys_ne _ hs']
      · rw [h3, matchInit_sys_self]
        simp [List.append_assoc]
      · intro r'
        rw [h4 r']
        by_cases hrr : r' = p.2
        · subst hrr
          rw [matchInit_ent_self]
          simp [List.count_cons_self, List.replicate_succ, List.append_assoc]
        · rw [matchInit_ent_ne _ hrr]
          have : ((p :: M).map (fun q => q.2)).count r' =
              (M.map (fun q => q.2)).count r' := by
            rw [List.map_cons, List.count_cons]
            simp [Ne.symm hrr]
          rw [this]
      · rw [h5, matchInit_scene]
      · rw [h6, matchInit_nextE]
      · rw [h7, matchInit_nextS]
    · have hstep : w.sysMatchStep s p = w := by
        simp [World.sysMatchStep, ht]
      rw [hstep]
      obtain ⟨M, hsub, hout⟩ := ih w
      exact ⟨M, fun x hx => List.mem_cons_of_mem _ (hsub x hx), hout⟩

lemma compLoop_pairs (sl : List Nat) (r : Nat) (w : World) :
    ∃ M : List Nat, (∀ x ∈ M, x ∈ sl ∧ r ∉ (w.sys x).entities) ∧
      CompLoopOut w (sl.foldl (fun acc s => acc.compMatchStep r s) w) r M := by
  induction sl generalizing w with
  | nil =>
    exact ⟨[], by simp, by simp, by simp, fun r' _ => rfl,
      fun s' => by simp, rfl, rfl, rfl⟩
  | cons s sl ih =>
    rw [List.foldl_cons]
    by_cases hm : r ∈ (w.sys s).entities
    · have hstep : w.compMatchStep r s = w := by
        simp [World.compMatchStep, hm]
      rw [hstep]
      obtain ⟨M, hsub, hout⟩ := ih w
      exact ⟨M, fun x hx =>
        ⟨List.mem_cons_of_mem _ (hsub x hx).1, (hsub x hx).2⟩, hout⟩
    · by_cases ht : (w.sys s).test (w.ent r) = true
      · have hstep : w.compMatchStep r s = w.matchInit s r := by
          simp [World.compMatchStep, hm, ht]
        rw [hstep]
        obtain ⟨M, hsub, h1, h2, h3, h4, h5, h6, h7⟩ := ih (w.matchInit s r)
        have hsM : s ∉ M := by
          intro hcon
          have := (hsub s hcon).2
          rw [matchInit_sys_self] at this
          exact this (by simp)
        refine ⟨s :: M, ?_, ?_, ?_, ?_, ?_, ?_, ?_, ?_⟩
        · intro x hx
          rcases List.mem_cons.mp hx with h | h
          · subst h
            exact ⟨List.mem_cons_self _ _, hm⟩
          · have hxs : x ≠ s := fun hcon => hsM (hcon ▸ h)
            have := (hsub x h).2
            rw [matchInit_sys_ne _ hxs] at this
            exact ⟨List.mem_cons_of_mem _ (hsub x h).1, this⟩
        · rw [h1, matchInit_log, List.map_cons, List.append_assoc,
            List.singleton_append]
        · rw [h2, matchInit_ent_self]
          simp [List.append_assoc]
        · intro r' hr'
          rw [h3 r' hr', matchInit_ent_ne _ hr']
        · intro s'
          rw [h4 s']
          by_cases hss : s' = s
          · subst hss
            rw [matchInit_sys_self, if_neg hsM,
              if_pos (List.mem_cons_self _ _)]
            simp
          · rw [matchInit_sys_ne _ hss]
            have hiff : s' ∈ M ↔ s' ∈ s :: M := by
              constructor
              · exact fun h => List.mem_cons_of_mem _ h
              · exact fun h => (List.mem_cons.mp h).resolve_left hss
            rw [if_congr hiff rfl rfl]
        · rw [h5, matchInit_scene]
        · rw [h6, matchInit_nextE]
        · rw [h7, matchInit_nextS]
      · have hstep : w.compMatchStep r s = w := by
          simp [World.compMatchStep, hm, ht]
        rw [hstep]
        obtain ⟨M, hsub, hout⟩ := ih w
        exact ⟨M, fun x hx =>
          ⟨List.mem_cons_of_mem _ (hsub x hx).1, (hsub x hx).2⟩, hout⟩

/-! ### Operations that only write the log -/

lemma foldl_skel {α : Type} (f : World → α → World)
    (h : ∀ (w : World) (x : α), SameSkeleton w (f w x)) :
    ∀ (l : List α) (w : World), SameSkeleton w (l.foldl f w) := by
  intro l
  induction l with
  | nil => intro w; exact ⟨rfl, rfl, rfl, rfl, rfl⟩
  | cons x l ih =>
    intro w
    obtain ⟨a1, a2, a3, a4, a5⟩ := h w x
    obtain ⟨b1, b2, b3, b4, b5⟩ := ih (f w x)
    exact ⟨b1.trans a1, b2.trans a2, b3.trans a3, b4.trans a4, b5.trans a5⟩

lemma entityDispatch_skel (w : World) (r : Nat) (fn : String) :
    SameSkeleton w (w.entityDispatch r fn) := by
  obtain ⟨-, h2, h3, h4, h5, h6⟩ := entityDispatch_out w r fn
  exact ⟨h2, h3, h4, h5, h6⟩

lemma sceneDispatch_skel (w : World) (fn : String) :
    SameSkeleton w (w.sceneDispatch fn) := by
  apply foldl_skel
  intro w0 s
  by_cases hh : (w0.sys s).hasHook fn = true
  · simp only [hh, if_true]
    apply foldl_skel
    intro w1 r
    exact ⟨rfl, rfl, rfl, rfl, rfl⟩
  · simp only [hh, Bool.false_eq_true, if_false]
    exact ⟨rfl, rfl, rfl, rfl, rfl⟩

lemma removeEntity_step (w : World) (r : Nat) :
    w.step (Op.removeEntity r) = w := rfl

lemma symInv_of_skel {w w' : World} (h : SameSkeleton w w')
    (hI : SymInv w) : SymInv w' := by
  obtain ⟨h1, h2, h3, h4, h5⟩ := h
  obtain ⟨hSym, hUn, hSB⟩ := hI
  refine ⟨?_, ⟨?_, ?_⟩, ⟨?_, ?_⟩⟩
  · intro r s
    rw [World.sys, World.ent, h1, h2]
    exact hSym r s
  · intro r hr
    rw [World.ent, h1]
    exact hUn.1 r (by rw [h4] at hr; exact hr)
  · intro s hs
    rw [World.sys, h2]
    exact hUn.2 s (by rw [h5] at hs; exact hs)
  · intro p hp
    rw [h4]
    exact hSB.1 p (by rw [h3] at hp; exact hp)
  · intro s hs
    rw [h5]
    exact hSB.2 s (by rw [h3] at hs; exact hs)

lemma predInv_of_skel {w w' : World} (h : SameSkeleton w w')
    (hI : PredInv w) : PredInv w' := by
  obtain ⟨h1, h2, h3, h4, h5⟩ := h
  obtain ⟨hP, hUn, hSB, hT⟩ := hI
  refine ⟨?_, ⟨?_, ?_⟩, ⟨?_, ?_⟩, ?_⟩
  · intro r s
    rw [World.sys, World.ent, h1, h2, show w'.scene = w.scene from h3]
    have hin : w'.inScene r = w.inScene r := by
      rw [World.inScene, World.inScene, h3]
    rw [hin]
    exact hP r s
  · intro r hr
    rw [World.ent, h1]
    exact hUn.1 r (by rw [h4] at hr; exact hr)
  · intro s hs
    rw [World.sys, h2]
    exact hUn.2 s (by rw [h5] at hs; exact hs)
  · intro p hp
    rw [h4]
    exact hSB.1 p (by rw [h3] at hp; exact hp)
  · intro s hs
    rw [h5]
    exact hSB.2 s (by rw [h3] at hs; exact hs)
  · intro s
    rw [World.sys, h2]
    exact hT s

/-! ### Membership symmetry is an invariant -/

lemma sysObj_eta (sy : SystemObj) :
    ({ sy with entities := sy.entities } : SystemObj) = sy := rfl

lemma entObj_eta (e : EntityObj) :
    ({ e with systems := e.systems } : EntityObj) = e := rfl

lemma count_ne_zero_iff_mem (M : List Nat) (x : Nat) :
    M.count x ≠ 0 ↔ x ∈ M := by
  rw [Ne, List.count_eq_zero]
  exact not_not

lemma symInv_store (w : World) (r : Nat) (i : Option String)
    (hr : r < w.nextE) (hI : SymInv w) : SymInv (w.addEntityStore r i) := by
  obtain ⟨hSym, hUn, hSB⟩ := hI
  refine ⟨?_, ⟨?_, ?_⟩, ⟨?_, ?_⟩⟩
  · intro r'' s
    rw [store_sys]
    by_cases hrr : r'' = r
    · subst hrr
      rw [store_ent_self]
      exact hSym r'' s
    · rw [store_ent_ne _ _ hrr]
      exact hSym r'' s
  · intro r'' h
    rw [store_nextE] at h
    have hne : r'' ≠ r := by omega
    rw [store_ent_ne _ _ hne]
    exact hUn.1 r'' h
  · intro s h
    rw [store_nextS] at h
    rw [store_sys]
    exact hUn.2 s h
  · intro p hp
    rw [store_scene_entities] at hp
    rw [store_nextE]
    rcases snd_mem_objSet hp with h | h
    · exact hSB.1 p h
    · omega
  · intro s hs
    rw [store_scene_systems] at hs
    rw [store_nextS]
    exact hSB.2 s hs

lemma symInv_attach (w : World) (s : Nat) (hs : s < w.nextS)
    (hI : SymInv w) : SymInv (w.addSystemAttach s) := by
  obtain ⟨hSym, hUn, hSB⟩ := hI
  refine ⟨?_, ⟨?_, ?_⟩, ⟨?_, ?_⟩⟩
  · intro r s''
    have he : (w.addSystemAttach s).ent r = w.ent r := attach_ent w s r
    rw [he]
    by_cases hss : s'' = s
    · subst hss
      rw [attach_sys_self]
      exact hSym r s''
    · rw [attach_sys_ne _ hss]
      exact hSym r s''
  · intro r h
    rw [attach_nextE] at h
    rw [attach_ent]
    exact hUn.1 r h
  · intro s'' h
    rw [attach_nextS] at h
    have hne : s'' ≠ s := by omega
    rw [attach_sys_ne _ hne]
    exact hUn.2 s'' h
  · intro p hp
    rw [attach_scene_entities] at hp
    rw [attach_nextE]
    exact hSB.1 p hp
  · intro s'' hs''
    rw [attach_scene_systems] at hs''
    rw [attach_nextS]
    rcases List.mem_append.mp hs'' with h | h
    · exact hSB.2 s'' h
    · rw [List.mem_singleton] at h
      omega

lemma symInv_setAdd (w : World) (r : Nat) (c : ComponentType)
    (hr : r < w.nextE) (hI : SymInv w) :
    SymInv (w.setEnt r ((w.ent r).add c)) := by
  obtain ⟨hSym, hUn, hSB⟩ := hI
  refine ⟨?_, ⟨?_, ?_⟩, ⟨?_, ?_⟩⟩
  · intro r'' s
    rw [sys_setEnt]
    by_cases hrr : r'' = r
    · subst hrr
      rw [ent_setEnt_self]
      exact hSym r'' s
    · rw [ent_setEnt_ne _ _ hrr]
      exact hSym r'' s
  · intro r'' h
    rw [nextE_setEnt] at h
    have hne : r'' ≠ r := by omega
    rw [ent_setEnt_ne _ _ hne]
    exact hUn.1 r'' h
  · intro s h
    rw [nextS_setEnt] at h
    rw [sys_setEnt]
    exact hUn.2 s h
  · intro p hp
    rw [scene_setEnt] at hp
    rw [nextE_setEnt]
    exact hSB.1 p hp
  · intro s hs
    rw [scene_setEnt] at hs
    rw [nextS_setEnt]
    exact hSB.2 s hs

lemma symInv_entLoop (sl : List Nat) (r : Nat) (w : World)
    (hI : SymInv w) (hsl : ∀ s ∈ sl, s < w.nextS) (hr : r < w.nextE) :
    SymInv (sl.foldl (fun acc s => acc.entMatchStep r s) w) := by
  obtain ⟨hSym, hUn, hSB⟩ := hI
  obtain ⟨M, hsub, h1, h2, h3, h4, h5, h6, h7⟩ := entLoop_pairs sl r w
  refine ⟨?_, ⟨?_, ?_⟩, ⟨?_, ?_⟩⟩
  · intro r'' s'
    rw [h4 s']
    by_cases hrr : r'' = r
    · subst hrr
      rw [h2]
      simp only [List.mem_append, List.mem_replicate]
      constructor
      · rintro (h | ⟨hn, -⟩)
        · exact Or.inl ((hSym r'' s').mp h)
        · exact Or.inr ((count_ne_zero_iff_mem M s').mp hn)
      · rintro (h | h)
        · exact Or.inl ((hSym r'' s').mpr h)
        · exact Or.inr ⟨(count_ne_zero_iff_mem M s').mpr h, trivial⟩
    · rw [h3 r'' hrr]
      simp only [List.mem_append, List.mem_replicate]
      constructor
      · rintro (h | ⟨-, hcon⟩)
        · exact (hSym r'' s').mp h
        · exact absurd hcon hrr
      · intro h
        exact Or.inl ((hSym r'' s').mpr h)
  · intro r'' h
    rw [h6] at h
    have hne : r'' ≠ r := by omega
    rw [h3 r'' hne]
    exact hUn.1 r'' h
  · intro s'' h
    rw [h7] at h
    rw [h4 s'']
    have hnm : s'' ∉ M := by
      intro hcon
      have := hsl s'' (hsub s'' hcon)
      omega
    rw [List.count_eq_zero.mpr hnm]
    rw [List.replicate_zero, List.append_nil, sysObj_eta]
    exact hUn.2 s'' h
  · intro p hp
    rw [h5] at hp
    rw [h6]
    exact hSB.1 p hp
  · intro s'' hs''
    rw [h5] at hs''
    rw [h7]
    exact hSB.2 s'' hs''

lemma symInv_sysLoop (pl : List (String × Nat)) (s : Nat) (w : World)
    (hI : SymInv w) (hpl : ∀ p ∈ pl, p.2 < w.nextE) (hs : s < w.nextS) :
    SymInv (pl.foldl (fun acc p => acc.sysMatchStep s p) w) := by
  obtain ⟨hSym, hUn, hSB⟩ := hI
  obtain ⟨M, hsub, h1, h2, h3, h4, h5, h6, h7⟩ := sysLoop_pairs pl s w
  refine ⟨?_, ⟨?_, ?_⟩, ⟨?_, ?_⟩⟩
  · intro r'' s''
    rw [h4 r'']
    by_cases hss : s'' = s
    · subst hss
      rw [h3]
      simp only [List.mem_append, List.mem_replicate]
      constructor
      · rintro (h | h)
        · exact Or.inl ((hSym r'' s'').mp h)
        · exact Or.inr ⟨(count_ne_zero_iff_mem _ r'').mpr h, trivial⟩
      · rintro (h | ⟨hn, -⟩)
        · exact Or.inl ((hSym r'' s'').mpr h)
        · exact Or.inr ((count_ne_zero_iff_mem _ r'').mp hn)
    · rw [h2 s'' hss]
      simp only [List.mem_append, List.mem_replicate]
      constructor
      · intro h
        exact Or.inl ((hSym r'' s'').mp h)
      · rintro (h | ⟨-, hcon⟩)
        · exact (hSym r'' s'').mpr h
        · exact absurd hcon hss
  · intro r'' h
    rw [h6] at h
    rw [h4 r'']
    have hnm : r'' ∉ M.map (fun q => q.2) := by
      intro hcon
      obtain ⟨p, hp, hpe⟩ := List.mem_map.mp hcon
      have := hpl p (hsub p hp)
      omega
    rw [List.count_eq_zero.mpr hnm]
    rw [List.replicate_zero, List.append_nil, entObj_eta]
    exact hUn.1 r'' h
  · intro s'' h
    rw [h7] at h
    have hne : s'' ≠ s := by omega
    rw [h2 s'' hne]
    exact hUn.2 s'' h
  · intro p hp
    rw [h5] at hp
    rw [h6]
    exact hSB.1 p hp
  · intro s'' hs''
    rw [h5] at hs''
    rw [h7]
    exact hSB.2 s'' hs''

lemma symInv_compLoop (sl : List Nat) (r : Nat) (w : World)
    (hI : SymInv w) (hsl : ∀ s ∈ sl, s < w.nextS) (hr : r < w.nextE) :
    SymInv (sl.foldl (fun acc s => acc.compMatchStep r s) w) := by
  obtain ⟨hSym, hUn, hSB⟩ := hI
  obtain ⟨M, hsub, h1, h2, h3, h4, h5, h6, h7⟩ := compLoop_pairs sl r w
  refine ⟨?_, ⟨?_, ?_⟩, ⟨?_, ?_⟩⟩
  · intro r'' s'
    rw [h4 s']
    by_cases hrr : r'' = r
    · subst hrr
      rw [h2]
      simp only [List.mem_append]
      by_cases hsm : s' ∈ M
      · rw [if_pos hsm]
        simp [hsm]
      · rw [if_neg hsm]
        simp only [List.not_mem_nil, or_false]
        constructor
        · intro h
          exact Or.inl ((hSym r'' s').mp h)
        · rintro (h | h)
          · exact (hSym r'' s').mpr h
          · exact absurd h hsm
    · rw [h3 r'' hrr]
      constructor
      · intro h
        rcases List.mem_append.mp h with h | h
        · exact (hSym r'' s').mp h
        · by_cases hsm : s' ∈ M
          · rw [if_pos hsm, List.mem_singleton] at h
            exact absurd h hrr
          · rw [if_neg hsm] at h
            exact absurd h (List.not_mem_nil r'')
      · intro h
        exact List.mem_append.mpr (Or.inl ((hSym r'' s').mpr h))
  · intro r'' h
    rw [h6] at h
    have hne : r'' ≠ r := by omega
    rw [h3 r'' hne]
    exact hUn.1 r'' h
  · intro s'' h
    rw [h7] at h
    rw [h4 s'']
    have hnm : s'' ∉ M := by
      intro hcon
      have := hsl s'' (hsub s'' hcon).1
      omega
    rw [if_neg hnm, List.append_nil, sysObj_eta]
    exact hUn.2 s'' h
  · intro p hp
    rw [h5] at hp
    rw [h6]
    exact hSB.1 p hp
  · intro s'' hs''
    rw [h5] at hs''
    rw [h7]
    exact hSB.2 s'' hs''

lemma symInv_step (w : World) (op : Op) (hv : op.valid w = true)
    (hI : SymInv w) : SymInv (w.step op) := by
  obtain ⟨hSym, hUn, hSB⟩ := hI
  cases op with
  | newEntity cs =>
    have hse : ∀ s, (w.step (Op.newEntity cs)).sys s = w.sys s := fun s => rfl
    have hee : (w.step (Op.newEntity cs)).ent w.nextE = EntityObj.new cs := by
      simp [World.step, World.newEntity, World.ent, Function.update_same]
    have hen : ∀ r, r ≠ w.nextE → (w.step (Op.newEntity cs)).ent r = w.ent r := by
      intro r hne
      simp [World.step, World.newEntity, World.ent, Function.update_noteq hne]
    have hnE : (w.step (Op.newEntity cs)).nextE = w.nextE + 1 := rfl
    have hnS : (w.step (Op.newEntity cs)).nextS = w.nextS := rfl
    have hsc : (w.step (Op.newEntity cs)).scene = w.scene := rfl
    refine ⟨?_, ⟨?_, ?_⟩, ⟨?_, ?_⟩⟩
    · intro r s
      rw [hse]
      by_cases hr : r = w.nextE
      · subst hr
        have hold : w.ent w.nextE = {} := hUn.1 w.nextE le_rfl
        have hent : w.nextE ∉ (w.sys s).entities := by
          intro hcon
          have := (hSym w.nextE s).mp hcon
          rw [hold] at this
          simp at this
        rw [hee, new_systems]
        exact iff_of_false hent (List.not_mem_nil s)
      · rw [hen r hr]
        exact hSym r s
    · intro r h
      rw [hnE] at h
      have hne : r ≠ w.nextE := by omega
      rw [hen r hne]
      exact hUn.1 r (by omega)
    · intro s h
      rw [hnS] at h
      rw [hse]
      exact hUn.2 s h
    · intro p hp
      rw [hsc] at hp
      rw [hnE]
      have := hSB.1 p hp
      omega
    · intro s hs
      rw [hsc] at hs
      rw [hnS]
      exact hSB.2 s hs
  | newSystem t hks =>
    have hne2 : ∀ r, (w.step (Op.newSystem t hks)).ent r = w.ent r :=
      fun r => rfl
    have hsy : (w.step (Op.newSystem t hks)).sys w.nextS =
        { scene := false, entities := [], test := t, hooks := hks } := by
      simp [World.step, World.newSystem, World.sys, Function.update_same]
    have hsn : ∀ s, s ≠ w.nextS →
        (w.step (Op.newSystem t hks)).sys s = w.sys s := by
      intro s hne
      simp [World.step, World.newSystem, World.sys, Function.update_noteq hne]
    have hnE : (w.step (Op.newSystem t hks)).nextE = w.nextE := rfl
    have hnS : (w.step (Op.newSystem t hks)).nextS = w.nextS + 1 := rfl
    have hsc : (w.step (Op.newSystem t hks)).scene = w.scene := rfl
    refine ⟨?_, ⟨?_, ?_⟩, ⟨?_, ?_⟩⟩
    · intro r s
      rw [hne2]
      by_cases hs : s = w.nextS
      · subst hs
        have hold : w.sys w.nextS = {} := hUn.2 w.nextS le_rfl
        have hmem : w.nextS ∉ (w.ent r).systems := by
          intro hcon
          have := (hSym r w.nextS).mpr hcon
          rw [hold] at this
          simp at this
        rw [hsy]
        exact iff_of_false (List.not_mem_nil r) hmem
      · rw [hsn s hs]
        exact hSym r s
    · intro r h
      rw [hnE] at h
      rw [hne2]
      exact hUn.1 r h
    · intro s h
      rw [hnS] at h
      have hne : s ≠ w.nextS := by omega
      rw [hsn s hne]
      exact hUn.2 s (by omega)
    · intro p hp
      rw [hsc] at hp
      rw [hnE]
      exact hSB.1 p hp
    · intro s hs
      rw [hsc] at hs
      rw [hnS]
      have := hSB.2 s hs
      omega
  | addEntity r i =>
    have hr : r < w.nextE := by
      simpa [Op.valid] using hv
    have hI1 := symInv_store w r i hr ⟨hSym, hUn, hSB⟩
    have hstep : w.step (Op.addEntity r i) =
        ((w.addEntityStore r i).scene.systems).foldl
          (fun acc s => acc.entMatchStep r s) (w.addEntityStore r i) := rfl
    rw [hstep]
    refine symInv_entLoop _ _ _ hI1 ?_ ?_
    · intro s hs
      exact hI1.2.2.2 s hs
    · rw [store_nextE]
      exact hr
  | addSystem s =>
    have hs : s < w.nextS := by
      simpa [Op.valid] using hv
    have hI1 := symInv_attach w s hs ⟨hSym, hUn, hSB⟩
    have hstep : w.step (Op.addSystem s) =
        ((w.addSystemAttach s).scene.entities).foldl
          (fun acc p => acc.sysMatchStep s p) (w.addSystemAttach s) := rfl
    rw [hstep]
    refine symInv_sysLoop _ _ _ hI1 ?_ ?_
    · intro p hp
      exact hI1.2.2.1 p hp
    · rw [attach_nextS]
      exact hs
  | addComponent r c =>
    have hr : r < w.nextE := by
      simpa [Op.valid] using hv
    have hI1 := symInv_setAdd w r c hr ⟨hSym, hUn, hSB⟩
    have hstep : w.step (Op.addComponent r c) =
        ((w.setEnt r ((w.ent r).add c)).scene.systems).foldl
          (fun acc s => acc.compMatchStep r s)
          (w.setEnt r ((w.ent r).add c)) := rfl
    rw [hstep]
    refine symInv_compLoop _ _ _ hI1 ?_ ?_
    · intro s' hs'
      exact hI1.2.2.2 s' hs'
    · rw [nextE_setEnt]
      exact hr
  | removeEntity r =>
    rw [removeEntity_step]
    exact ⟨hSym, hUn, hSB⟩
  | entityDispatch r fn =>
    exact symInv_of_skel (entityDispatch_skel w r fn) ⟨hSym, hUn, hSB⟩
  | sceneDispatch fn =>
    exact symInv_of_skel (sceneDispatch_skel w fn) ⟨hSym, hUn, hSB⟩

lemma symInv_run (ops : List Op) : ∀ (w : World),
    w.validFrom ops = true → SymInv w → SymInv (w.run ops) := by
  induction ops with
  | nil => intro w _ h; exact h
  | cons op ops ih =>
    intro w hv hI
    rw [World.validFrom, Bool.and_eq_true] at hv
    have hrun : w.run (op :: ops) = (w.step op).run ops := rfl
    rw [hrun]
    exact ih _ hv.2 (symInv_step w op hv.1 hI)

lemma symInv_init : SymInv World.init := by
  refine ⟨?_, ⟨?_, ?_⟩, ⟨?_, ?_⟩⟩
  · intro r s
    simp [World.init, World.sys, World.ent]
  · intro r _
    rfl
  · intro s _
    rfl
  · intro p hp
    simp [World.init] at hp
  · intro s hs
    simp [World.init] at hs

/-! ### Predicate consistency is an invariant for sound traces -/

lemma predInv_newEntity (w : World) (cs : List ComponentType)
    (hI : PredInv w) : PredInv ((w.newEntity cs).1) := by
  obtain ⟨hP, hUn, hSB, hT⟩ := hI
  have hse : ∀ s, ((w.newEntity cs).1).sys s = w.sys s := fun s => rfl
  have hee : ((w.newEntity cs).1).ent w.nextE = EntityObj.new cs := by
    simp [World.newEntity, World.ent, Function.update_same]
  have hen : ∀ r, r ≠ w.nextE → ((w.newEntity cs).1).ent r = w.ent r := by
    intro r hne
    simp [World.newEntity, World.ent, Function.update_noteq hne]
  have hnE : ((w.newEntity cs).1).nextE = w.nextE + 1 := rfl
  have hnS : ((w.newEntity cs).1).nextS = w.nextS := rfl
  have hsc : ((w.newEntity cs).1).scene = w.scene := rfl
  have hin : ∀ r, ((w.newEntity cs).1).inScene r = w.inScene r := fun r => rfl
  refine ⟨?_, ⟨?_, ?_⟩, ⟨?_, ?_⟩, ?_⟩
  · intro r s
    rw [hse, hin, show ((w.newEntity cs).1).scene.systems = w.scene.systems
      from rfl]
    by_cases hr : r = w.nextE
    · subst hr
      have hfalse : w.inScene w.nextE = false :=
        not_inScene_of_ge w _ ⟨hSB.1, hSB.2⟩ le_rfl
      constructor
      · intro hcon
        have := (hP w.nextE s).mp hcon
        rw [hfalse] at this
        simp at this
      · rintro ⟨-, hcon, -⟩
        rw [hfalse] at hcon
        simp at hcon
    · rw [hen r hr]
      exact hP r s
  · intro r h
    rw [hnE] at h
    have hne : r ≠ w.nextE := by omega
    rw [hen r hne]
    exact hUn.1 r (by omega)
  · intro s h
    rw [hnS] at h
    rw [hse]
    exact hUn.2 s h
  · intro p hp
    rw [hsc] at hp
    rw [hnE]
    have := hSB.1 p hp
    omega
  · intro s hs
    rw [hsc] at hs
    rw [hnS]
    exact hSB.2 s hs
  · intro s
    rw [hse]
    exact hT s

lemma predInv_newSystem (w : World) (t : EntityObj → Bool) (hks : List String)
    (hgood : ComponentsOnly t ∧ MonotoneTest t) (hI : PredInv w) :
    PredInv ((w.newSystem t hks).1) := by
  obtain ⟨hP, hUn, hSB, hT⟩ := hI
  have hne2 : ∀ r, ((w.newSystem t hks).1).ent r = w.ent r := fun r => rfl
  have hsy : ((w.newSystem t hks).1).sys w.nextS =
      { scene := false, entities := [], test := t, hooks := hks } := by
    simp [World.newSystem, World.sys, Function.update_same]
  have hsn : ∀ s, s ≠ w.nextS → ((w.newSystem t hks).1).sys s = w.sys s := by
    intro s hne
    simp [World.newSystem, World.sys, Function.update_noteq hne]
  have hnE : ((w.newSystem t hks).1).nextE = w.nextE := rfl
  have hnS : ((w.newSystem t hks).1).nextS = w.nextS + 1 := rfl
  have hsc : ((w.newSystem t hks).1).scene = w.scene := rfl
  have hin : ∀ r, ((w.newSystem t hks).1).inScene r = w.inScene r :=
    fun r => rfl
  refine ⟨?_, ⟨?_, ?_⟩, ⟨?_, ?_⟩, ?_⟩
  · intro r s
    rw [hne2, hin, show ((w.newSystem t hks).1).scene.systems =
      w.scene.systems from rfl]
    by_cases hs : s = w.nextS
    · subst hs
      rw [hsy]
      constructor
      · intro hcon
        simp at hcon
      · rintro ⟨-, -, hcon⟩
        have := hSB.2 _ hcon
        omega
    · rw [hsn s hs]
      exact hP r s
  · intro r h
    rw [hnE] at h
    rw [hne2]
    exact hUn.1 r h
  · intro s h
    rw [hnS] at h
    have hne : s ≠ w.nextS := by omega
    rw [hsn s hne]
    exact hUn.2 s (by omega)
  · intro p hp
    rw [hsc] at hp
    rw [hnE]
    exact hSB.1 p hp
  · intro s hs
    rw [hsc] at hs
    rw [hnS]
    have := hSB.2 s hs
    omega
  · intro s
    by_cases hs : s = w.nextS
    · subst hs
      rw [hsy]
      exact hgood
    · rw [hsn s hs]
      exact hT s

lemma predInv_addEntity (w : World) (r : Nat) (i : Option String)
    (hr : r < w.nextE)
    (hfresh : objHas w.scene.entities (w.assignedId i) = false)
    (hI : PredInv w) : PredInv ((w.addEntity r i).1) := by
  obtain ⟨hP, hUn, hSB, hT⟩ := hI
  have hc : ∀ s ∈ w.scene.systems, Componental (w.sys s).test :=
    fun s _ => componentsOnly_componental (hT s).1
  obtain ⟨h1, h2, h3, h4, h5, h6, h7⟩ := addEntity_out w r i hc
  have hents : ((w.addEntity r i).1).scene.entities =
      w.scene.entities ++ [(w.assignedId i, r)] := by
    rw [h5, store_scene_entities,
      objSet_fresh _ _ _ (objHas_false_objGet _ _ hfresh)]
  have hscs : ((w.addEntity r i).1).scene.systems = w.scene.systems := by
    rw [h5, store_scene_systems]
  have hsys4 : ∀ s', ((w.addEntity r i).1).sys s' =
      { w.sys s' with entities := (w.sys s').entities ++
          (List.replicate
            ((w.scene.systems.filter (fun s => (w.sys s).test
              { w.ent r with id := w.assignedId i })).count s') r) } := by
    intro s'
    rw [h4 s', store_sys]
  have htest : ∀ s', (((w.addEntity r i).1).sys s').test =
      (w.sys s').test := by
    intro s'
    rw [hsys4 s']
  have hmem : ∀ r'' s', (r'' ∈ (((w.addEntity r i).1).sys s').entities) ↔
      (r'' ∈ (w.sys s').entities ∨
        ((w.scene.systems.filter (fun s => (w.sys s).test
            { w.ent r with id := w.assignedId i })).count s' ≠ 0 ∧
          r'' = r)) := by
    intro r'' s'
    rw [hsys4 s']
    simp [List.mem_append, List.mem_replicate]
  have hentr : ((w.addEntity r i).1).ent r =
      { { w.ent r with id := w.assignedId i } with systems :=
          ({ w.ent r with id := w.assignedId i } : EntityObj).systems ++
            (w.scene.systems.filter (fun s => (w.sys s).test
              { w.ent r with id := w.assignedId i })) } := by
    rw [h2, store_ent_self]
  have hentn : ∀ r', r' ≠ r → ((w.addEntity r i).1).ent r' = w.ent r' := by
    intro r' hne
    rw [h3 r' hne, store_ent_ne _ _ hne]
  have hnE : ((w.addEntity r i).1).nextE = w.nextE := by
    rw [h6, store_nextE]
  have hnS : ((w.addEntity r i).1).nextS = w.nextS := by
    rw [h7, store_nextS]
  have hin : ∀ r'', ((w.addEntity r i).1).inScene r'' =
      (w.inScene r'' || (r == r'')) := by
    intro r''
    rw [World.inScene, hents, List.any_append]
    rw [World.inScene]
    simp
  refine ⟨?_, ⟨?_, ?_⟩, ⟨?_, ?_⟩, ?_⟩
  · intro r'' s'
    rw [hmem r'' s', htest s', hin r'', hscs]
    by_cases hrr : r'' = r
    · subst hrr
      have hcomp : (((w.addEntity r'' i).1).ent r'').components =
          (w.ent r'').components := by
        rw [hentr]
      have ht1 : (w.sys s').test (((w.addEntity r'' i).1).ent r'') =
          (w.sys s').test { w.ent r'' with id := w.assignedId i } :=
        (hT s').1 _ _ hcomp
      rw [ht1]
      have hcnt : (w.scene.systems.filter (fun s => (w.sys s).test
            { w.ent r'' with id := w.assignedId i })).count s' ≠ 0 ↔
          (s' ∈ w.scene.systems ∧ (w.sys s').test
            { w.ent r'' with id := w.assignedId i } = true) := by
        rw [count_ne_zero_iff_mem, List.mem_filter]
      simp only [beq_self_eq_true, Bool.or_true, true_and, and_true]
      constructor
      · rintro (h | hcn)
        · obtain ⟨ht0, -, hsy0⟩ := (hP r'' s').mp h
          have : (w.sys s').test { w.ent r'' with id := w.assignedId i } =
              (w.sys s').test (w.ent r'') :=
            (hT s').1 _ _ rfl
          rw [this]
          exact ⟨ht0, hsy0⟩
        · obtain ⟨hsy0, ht0⟩ := hcnt.mp hcn
          exact ⟨ht0, hsy0⟩
      · rintro ⟨ht0, hsy0⟩
        exact Or.inr (hcnt.mpr ⟨hsy0, ht0⟩)
    · have hne' : (((w.addEntity r i).1).ent r'') = w.ent r'' := hentn r'' hrr
      rw [hne']
      have hbe : (r == r'') = false := by
        simp
        omega
      rw [hbe]
      simp only [Bool.or_false]
      constructor
      · rintro (h | ⟨-, hcon⟩)
        · exact (hP r'' s').mp h
        · exact absurd hcon hrr
      · intro h
        exact Or.inl ((hP r'' s').mpr h)
  · intro r'' h
    rw [hnE] at h
    have hne : r'' ≠ r := by omega
    rw [hentn r'' hne]
    exact hUn.1 r'' h
  · intro s'' h
    rw [hnS] at h
    rw [hsys4 s'']
    have hnm : s'' ∉ w.scene.systems.filter (fun s => (w.sys s).test
        { w.ent r with id := w.assignedId i }) := by
      intro hcon
      have := hSB.2 s'' (List.mem_of_mem_filter hcon)
      omega
    rw [List.count_eq_zero.mpr hnm, List.replicate_zero, List.append_nil,
      sysObj_eta]
    exact hUn.2 s'' h
  · intro p hp
    rw [hents] at hp
    rw [hnE]
    rcases List.mem_append.mp hp with h | h
    · exact hSB.1 p h
    · rw [List.mem_singleton] at h
      rw [h]
      exact hr
  · intro s'' hs''
    rw [hscs] at hs''
    rw [hnS]
    exact hSB.2 s'' hs''
  · intro s
    rw [htest s]
    exact hT s

lemma predInv_addSystem (w : World) (s : Nat) (hs : s < w.nextS)
    (hI : PredInv w) : PredInv (w.addSystem s) := by
  obtain ⟨hP, hUn, hSB, hT⟩ := hI
  obtain ⟨h1, h2, h3, h4, h5, h6, h7⟩ :=
    addSystem_out w s (componentsOnly_componental (hT s).1)
  have hsysn : ∀ s', s' ≠ s → (w.addSystem s).sys s' = w.sys s' := by
    intro s' h
    rw [h2 s' h, attach_sys_ne _ h]
  have htests : ∀ s'', ((w.addSystem s).sys s'').test = (w.sys s'').test := by
    intro s''
    by_cases hss : s'' = s
    · subst hss
      rw [h3, attach_sys_self]
    · rw [hsysn s'' hss]
  have hmems : ∀ r'', (r'' ∈ ((w.addSystem s).sys s).entities) ↔
      (r'' ∈ (w.sys s).entities ∨
        r'' ∈ ((w.scene.entities.filter
          (fun p => (w.sys s).test (w.ent p.2))).map (fun p => p.2))) := by
    intro r''
    rw [h3, attach_sys_self]
    simp [List.mem_append]
  have hcompents : ∀ r', ((w.addSystem s).ent r').components =
      (w.ent r').components := by
    intro r'
    rw [h4 r', attach_ent]
  have hin : ∀ r'', (w.addSystem s).inScene r'' = w.inScene r'' := by
    intro r''
    rw [World.inScene, World.inScene, h5, attach_scene_entities]
  have hscs : (w.addSystem s).scene.systems = w.scene.systems ++ [s] := by
    rw [h5, attach_scene_systems]
  have hnE : (w.addSystem s).nextE = w.nextE := by
    rw [h6, attach_nextE]
  have hnS : (w.addSystem s).nextS = w.nextS := by
    rw [h7, attach_nextS]
  have hmm : ∀ r'', (r'' ∈ ((w.scene.entities.filter
      (fun p => (w.sys s).test (w.ent p.2))).map (fun p => p.2))) ↔
      (w.inScene r'' = true ∧ (w.sys s).test (w.ent r'') = true) := by
    intro r''
    rw [List.mem_map]
    constructor
    · rintro ⟨p, hp, hpe⟩
      rw [List.mem_filter] at hp
      refine ⟨(inScene_iff w r'').mpr ⟨p, hp.1, hpe⟩, ?_⟩
      rw [← hpe]
      exact hp.2
    · rintro ⟨hin0, ht0⟩
      obtain ⟨p, hp, hpe⟩ := (inScene_iff w r'').mp hin0
      refine ⟨p, List.mem_filter.mpr ⟨hp, ?_⟩, hpe⟩
      rw [hpe]
      exact ht0
  refine ⟨?_, ⟨?_, ?_⟩, ⟨?_, ?_⟩, ?_⟩
  · intro r'' s''
    have httest : ((w.addSystem s).sys s'').test ((w.addSystem s).ent r'') =
        (w.sys s'').test (w.ent r'') := by
      rw [htests s'']
      exact (hT s'').1 _ _ (hcompents r'')
    rw [httest, hin, hscs]
    by_cases hss : s'' = s
    · subst hss
      rw [hmems r'', hmm r'']
      have hsm : s'' ∈ w.scene.systems ++ [s''] := by
        simp
      constructor
      · rintro (h | ⟨hi, ht⟩)
        · obtain ⟨ht0, hi0, -⟩ := (hP r'' s'').mp h
          exact ⟨ht0, hi0, hsm⟩
        · exact ⟨ht, hi, hsm⟩
      · rintro ⟨ht, hi, -⟩
        exact Or.inr ⟨hi, ht⟩
    · rw [hsysn s'' hss]
      have hsm : (s'' ∈ w.scene.systems ++ [s]) ↔ s'' ∈ w.scene.systems := by
        simp [List.mem_append, hss]
      rw [hsm]
      exact hP r'' s''
  · intro r'' h
    rw [hnE] at h
    rw [h4 r'', attach_ent]
    have hnm : r'' ∉ ((w.scene.entities.filter
        (fun p => (w.sys s).test (w.ent p.2))).map (fun p => p.2)) := by
      intro hcon
      have := (hmm r'').mp hcon
      obtain ⟨p, hp, hpe⟩ := (inScene_iff w r'').mp this.1
      have := hSB.1 p hp
      omega
    rw [List.count_eq_zero.mpr hnm, List.replicate_zero, List.append_nil,
      entObj_eta]
    exact hUn.1 r'' h
  · intro s'' h
    rw [hnS] at h
    have hne : s'' ≠ s := by omega
    rw [hsysn s'' hne]
    exact hUn.2 s'' h
  · intro p hp
    rw [h5, attach_scene_entities] at hp
    rw [hnE]
    exact hSB.1 p hp
  · intro s'' hs''
    rw [hscs] at hs''
    rw [hnS]
    rcases List.mem_append.mp hs'' with h | h
    · exact hSB.2 s'' h
    · rw [List.mem_singleton] at h
      rw [h]
      exact hs
  · intro s''
    rw [htests s'']
    exact hT s''

lemma predInv_addComponent (w : World) (r : Nat) (c : ComponentType)
    (hr : r < w.nextE) (hins : w.inScene r = true)
    (hI : PredInv w) : PredInv (w.addComponentToEntity r c) := by
  obtain ⟨hP, hUn, hSB, hT⟩ := hI
  have hc : ∀ s ∈ w.scene.systems, Componental (w.sys s).test :=
    fun s _ => componentsOnly_componental (hT s).1
  obtain ⟨h1, h2, h3, h4, h5, h6, h7⟩ := addComponent_mem_out w r c hc
  have hsys1 : ∀ s', (w.addComponentToEntity r c).sys s' =
      { w.sys s' with entities := (w.sys s').entities ++
          (if s' ∈ w.scene.systems ∧ r ∉ (w.sys s').entities ∧
              (w.sys s').test ((w.ent r).add c) = true
            then [r] else []) } := by
    intro s'
    have := h1 s'
    rw [sys_setEnt, ent_setEnt_self] at this
    exact this
  have htests : ∀ s', ((w.addComponentToEntity r c).sys s').test =
      (w.sys s').test := by
    intro s'
    rw [hsys1 s']
  have hcompr : ((w.addComponentToEntity r c).ent r).components =
      ((w.ent r).add c).components := by
    rw [h3, ent_setEnt_self]
  have hentn : ∀ r', r' ≠ r →
      (w.addComponentToEntity r c).ent r' = w.ent r' := by
    intro r' hne
    rw [h4 r' hne, ent_setEnt_ne _ _ hne]
  have hsc : (w.addComponentToEntity r c).scene = w.scene := by
    rw [h5, scene_setEnt]
  have hin : ∀ r'', (w.addComponentToEntity r c).inScene r'' =
      w.inScene r'' := by
    intro r''
    rw [World.inScene, World.inScene, hsc]
  have hnE : (w.addComponentToEntity r c).nextE = w.nextE := by
    rw [h6, nextE_setEnt]
  have hnS : (w.addComponentToEntity r c).nextS = w.nextS := by
    rw [h7, nextS_setEnt]
  refine ⟨?_, ⟨?_, ?_⟩, ⟨?_, ?_⟩, ?_⟩
  · intro r'' s'
    rw [htests s', hin, show (w.addComponentToEntity r c).scene.systems =
      w.scene.systems from by rw [hsc]]
    by_cases hrr : r'' = r
    · subst hrr
      have httest : (w.sys s').test ((w.addComponentToEntity r'' c).ent r'') =
          (w.sys s').test ((w.ent r'').add c) :=
        (hT s').1 _ _ hcompr
      rw [httest]
      rw [hsys1 s']
      simp only [List.mem_append]
      by_cases hcnd : s' ∈ w.scene.systems ∧ r'' ∉ (w.sys s').entities ∧
          (w.sys s').test ((w.ent r'').add c) = true
      · rw [if_pos hcnd]
        simp only [List.mem_singleton]
        constructor
        · intro _
          exact ⟨hcnd.2.2, hins, hcnd.1⟩
        · intro _
          exact Or.inr trivial
      · rw [if_neg hcnd]
        simp only [List.not_mem_nil, or_false]
        constructor
        · intro h
          obtain ⟨ht0, -, hsy0⟩ := (hP r'' s').mp h
          exact ⟨(hT s').2 _ c ht0, hins, hsy0⟩
        · rintro ⟨ht0, -, hsy0⟩
          by_cases hm : r'' ∈ (w.sys s').entities
          · exact hm
          · exact absurd ⟨hsy0, hm, ht0⟩ hcnd
    · have httest : (w.sys s').test ((w.addComponentToEntity r c).ent r'') =
          (w.sys s').test (w.ent r'') := by
        rw [hentn r'' hrr]
      rw [httest, hsys1 s']
      simp only [List.mem_append]
      have hnm : r'' ∉ (if s' ∈ w.scene.systems ∧ r ∉ (w.sys s').entities ∧
          (w.sys s').test ((w.ent r).add c) = true then [r] else []) := by
        by_cases hcnd : s' ∈ w.scene.systems ∧ r ∉ (w.sys s').entities ∧
            (w.sys s').test ((w.ent r).add c) = true
        · rw [if_pos hcnd]
          simp [hrr]
        · rw [if_neg hcnd]
          simp
      constructor
      · rintro (h | h)
        · exact (hP r'' s').mp h
        · exact absurd h hnm
      · intro h
        exact Or.inl ((hP r'' s').mpr h)
  · intro r'' h
    rw [hnE] at h
    have hne : r'' ≠ r := by omega
    rw [hentn r'' hne]
    exact hUn.1 r'' h
  · intro s'' h
    rw [hnS] at h
    rw [hsys1 s'']
    have hcnd : ¬ (s'' ∈ w.scene.systems ∧ r ∉ (w.sys s'').entities ∧
        (w.sys s'').test ((w.ent r).add c) = true) := by
      rintro ⟨hcon, -, -⟩
      have := hSB.2 s'' hcon
      omega
    rw [if_neg hcnd, List.append_nil, sysObj_eta]
    exact hUn.2 s'' h
  · intro p hp
    rw [hsc] at hp
    rw [hnE]
    exact hSB.1 p hp
  · intro s'' hs''
    rw [hsc] at hs''
    rw [hnS]
    exact hSB.2 s'' hs''
  · intro s''
    rw [htests s'']
    exact hT s''

lemma predInv_step (w : World) (op : Op) (hsnd : op.sound w)
    (hI : PredInv w) : PredInv (w.step op) := by
  cases op with
  | newEntity cs => exact predInv_newEntity w cs hI
  | newSystem t hks => exact predInv_newSystem w t hks hsnd hI
  | addEntity r i => exact predInv_addEntity w r i hsnd.1 hsnd.2 hI
  | addSystem s => exact predInv_addSystem w s hsnd hI
  | addComponent r c => exact predInv_addComponent w r c hsnd.1 hsnd.2 hI
  | removeEntity r =>
    rw [removeEntity_step]
    exact hI
  | entityDispatch r fn =>
    exact predInv_of_skel (entityDispatch_skel w r fn) hI
  | sceneDispatch fn =>
    exact predInv_of_skel (sceneDispatch_skel w fn) hI

lemma predInv_run (ops : List Op) : ∀ (w : World),
    w.soundFrom ops → PredInv w → PredInv (w.run ops) := by
  induction ops with
  | nil => intro w _ h; exact h
  | cons op ops ih =>
    intro w hsnd hI
    rw [World.soundFrom] at hsnd
    have hrun : w.run (op :: ops) = (w.step op).run ops := rfl
    rw [hrun]
    exact ih _ hsnd.2 (predInv_step w op hsnd.1 hI)

lemma predInv_init : PredInv World.init := by
  refine ⟨?_, ⟨?_, ?_⟩, ⟨?_, ?_⟩, ?_⟩
  · intro r s
    simp [World.init, World.sys, World.ent, World.inScene]
  · intro r _
    rfl
  · intro s _
    rfl
  · intro p hp
    simp [World.init] at hp
  · intro s hs
    simp [World.init] at hs
  · intro s
    exact default_test_good

/-! ### `Entity.set` -/

lemma objSet_objSet {α : Type} (l : List (String × α)) (k : String)
    (v v' : α) : objSet (objSet l k v) k v' = objSet l k v' := by
  induction l with
  | nil => simp [objSet]
  | cons p l ih =>
    by_cases hp : p.1 == k
    · simp [objSet, hp]
    · simp [objSet, hp, ih]

lemma entObj_eta_components (e : EntityObj) :
    ({ e with components := e.components } : EntityObj) = e := rfl

lemma setcStep_error (c : ComponentType) (err : JSError) (kv : String × Val) :
    setcStep c (Except.error err) kv = Except.error err := rfl

lemma foldl_setcStep_error (c : ComponentType) (data : Obj) (err : JSError) :
    data.foldl (setcStep c) (Except.error err) = Except.error err := by
  induction data with
  | nil => rfl
  | cons kv rest ih =>
    rw [List.foldl_cons, setcStep_error]
    exact ih

lemma setc_nil (e : EntityObj) (c : ComponentType) :
    e.setc c [] = Except.ok e := rfl

lemma setc_missing (e : EntityObj) (c : ComponentType) (kv : String × Val)
    (rest : Obj) (hm : objGet e.components c.name = none) :
    e.setc c (kv :: rest) = Except.error JSError.typeError := by
  rw [EntityObj.setc, List.foldl_cons]
  have hstep : setcStep c (Except.ok e) kv = Except.error JSError.typeError := by
    simp [setcStep, hm]
  rw [hstep]
  exact foldl_setcStep_error c rest _

lemma setc_ok (data : Obj) : ∀ (e : EntityObj) (c : ComponentType)
    (inst : Obj), objGet e.components c.name = some inst →
    e.setc c data = Except.ok { e with components :=
      (objSet e.components c.name
        (data.foldl (fun i kv => objSet i kv.1 kv.2) inst)) } := by
  induction data with
  | nil =>
    intro e c inst hhas
    rw [setc_nil, List.foldl_nil, objSet_found_self _ _ _ hhas,
      entObj_eta_components]
  | cons kv rest ih =>
    intro e c inst hhas
    rw [EntityObj.setc, List.foldl_cons]
    have hstep : setcStep c (Except.ok e) kv = Except.ok
        { e with components :=
            objSet e.components c.name (objSet inst kv.1 kv.2) } := by
      simp [setcStep, hhas]
    rw [hstep]
    have hhas2 : objGet ({ e with components :=
        (objSet e.components c.name (objSet inst kv.1 kv.2)) }
          : EntityObj).components c.name = some (objSet inst kv.1 kv.2) :=
      objGet_objSet_self _ _ _
    have := ih { e with components :=
        (objSet e.components c.name (objSet inst kv.1 kv.2)) } c
      (objSet inst kv.1 kv.2) hhas2
    rw [EntityObj.setc] at this
    rw [this]
    rw [List.foldl_cons]
    have hss : objSet (objSet e.components c.name (objSet inst kv.1 kv.2))
        c.name (rest.foldl (fun i kv => objSet i kv.1 kv.2)
          (objSet inst kv.1 kv.2)) =
        objSet e.components c.name (rest.foldl
          (fun i kv => objSet i kv.1 kv.2) (objSet inst kv.1 kv.2)) :=
      objSet_objSet _ _ _ _
    rw [hss]

lemma has_single_iff (e : EntityObj) (c : ComponentType) :
    e.has [c] = true ↔ (objGet e.components c.name).isSome = true := by
  rw [EntityObj.has]
  simp [objHas]

/-! ### Scene and id preservation along the matching loops -/

lemma entMatchStep_scene (w : World) (r s : Nat) :
    (w.entMatchStep r s).scene = w.scene := by
  rw [World.entMatchStep]
  split
  · rw [matchInit_scene]
  · rfl

lemma sysMatchStep_scene (w : World) (s : Nat) (p : String × Nat) :
    (w.sysMatchStep s p).scene = w.scene := by
  rw [World.sysMatchStep]
  split
  · rw [matchInit_scene]
  · rfl

lemma compMatchStep_scene (w : World) (r s : Nat) :
    (w.compMatchStep r s).scene = w.scene := by
  rw [World.compMatchStep]
  split
  · rfl
  · split
    · rw [matchInit_scene]
    · rfl

lemma entMatchStep_ent_id (w : World) (r s r' : Nat) :
    ((w.entMatchStep r s).ent r').id = (w.ent r').id := by
  rw [World.entMatchStep]
  split
  · rw [matchInit_ent_id]
  · rfl

lemma sysMatchStep_sys_scene (w : World) (s : Nat) (p : String × Nat)
    (s' : Nat) : ((w.sysMatchStep s p).sys s').scene = (w.sys s').scene := by
  rw [World.sysMatchStep]
  split
  · by_cases hss : s' = s
    · subst hss
      rw [matchInit_sys_self]
    · rw [matchInit_sys_ne _ hss]
  · rfl

lemma entLoopPre_ent_id (r : Nat) (pre : List Nat) :
    ∀ (w0 : World),
      ((pre.foldl (fun acc s => acc.entMatchStep r s) w0).ent r).id =
        (w0.ent r).id := by
  induction pre with
  | nil => intro w0; rfl
  | cons s pre ih =>
    intro w0
    rw [List.foldl_cons, ih, entMatchStep_ent_id]

lemma entLoopPre_scene (r : Nat) (pre : List Nat) :
    ∀ (w0 : World),
      (pre.foldl (fun acc s => acc.entMatchStep r s) w0).scene = w0.scene := by
  induction pre with
  | nil => intro w0; rfl
  | cons s pre ih =>
    intro w0
    rw [List.foldl_cons, ih, entMatchStep_scene]

lemma sysLoopPre_sys_scene (s : Nat) (pre : List (String × Nat)) :
    ∀ (w0 : World),
      ((pre.foldl (fun acc p => acc.sysMatchStep s p) w0).sys s).scene =
        (w0.sys s).scene := by
  induction pre with
  | nil => intro w0; rfl
  | cons p pre ih =>
    intro w0
    rw [List.foldl_cons, ih, sysMatchStep_sys_scene]

/-! ### The id counter never decreases -/

lemma step_count_mono (w : World) (op : Op) :
    w.scene.count ≤ (w.step op).scene.count := by
  cases op with
  | newEntity cs => exact le_refl _
  | newSystem t hks => exact le_refl _
  | addEntity r i =>
    have h1 : w.step (Op.addEntity r i) =
        ((w.addEntityStore r i).scene.systems).foldl
          (fun acc s => acc.entMatchStep r s) (w.addEntityStore r i) := rfl
    rw [h1, entLoopPre_scene, store_scene_count]
    cases i
    · exact Nat.le_succ _
    · exact le_refl _
  | addSystem s =>
    have h1 : w.step (Op.addSystem s) =
        ((w.addSystemAttach s).scene.entities).foldl
          (fun acc p => acc.sysMatchStep s p) (w.addSystemAttach s) := rfl
    rw [h1, foldl_scene_eq _ (fun w0 p => sysMatchStep_scene w0 s p),
      attach_scene_count]
  | addComponent r c =>
    have h1 : w.step (Op.addComponent r c) =
        ((w.setEnt r ((w.ent r).add c)).scene.systems).foldl
          (fun acc s => acc.compMatchStep r s)
          (w.setEnt r ((w.ent r).add c)) := rfl
    rw [h1, foldl_scene_eq _ (fun w0 s' => compMatchStep_scene w0 r s'),
      scene_setEnt]
  | removeEntity r =>
    rw [removeEntity_step]
  | entityDispatch r fn =>
    have h1 : w.step (Op.entityDispatch r fn) = w.entityDispatch r fn := rfl
    rw [h1, (entityDispatch_skel w r fn).2.2.1]
  | sceneDispatch fn =>
    have h1 : w.step (Op.sceneDispatch fn) = w.sceneDispatch fn := rfl
    rw [h1, (sceneDispatch_skel w fn).2.2.1]

lemma run_count_mono (ops : List Op) : ∀ (w : World),
    w.scene.count ≤ (w.run ops).scene.count := by
  induction ops with
  | nil => intro w; exact le_refl _
  | cons op ops ih =>
    intro w
    have hrun : w.run (op :: ops) = (w.step op).run ops := rfl
    rw [hrun]
    exact le_trans (step_count_mono w op) (ih (w.step op))

/-! ### `query` -/

lemma query_foldl (w : World) (cs : List ComponentType) :
    ∀ (l : List (String × Nat)) (acc : List Nat),
      l.foldl (fun ms p => if (w.ent p.2).has cs then ms ++ [p.2] else ms)
          acc =
        acc ++ ((l.filter (fun p => (w.ent p.2).has cs)).map
          (fun p => p.2)) := by
  intro l
  induction l with
  | nil => intro acc; simp
  | cons p l ih =>
    intro acc
    rw [List.foldl_cons]
    by_cases h : (w.ent p.2).has cs = true
    · have hf : (p :: l).filter (fun q => (w.ent q.2).has cs) =
          p :: l.filter (fun q => (w.ent q.2).has cs) := by
        simp [List.filter_cons, h]
      rw [if_pos h, ih, hf, List.map_cons]
      simp [List.append_assoc]
    · have hf : (p :: l).filter (fun q => (w.ent q.2).has cs) =
          l.filter (fun q => (w.ent q.2).has cs) := by
        simp only [List.filter_cons]
        simp [h]
      rw [if_neg h, ih, hf]

lemma query_eq_filter (w : World) (cs : List ComponentType) :
    w.query cs = ((w.scene.entities.filter
      (fun p => (w.ent p.2).has cs)).map (fun p => p.2)) := by
  rw [World.query, query_foldl]
  simp

/-! ### `memberSystems` only ever grows, in match order -/

lemma step_systems_extend (w : World) (op : Op) (r : Nat)
    (hr : r < w.nextE) :
    (w.ent r).systems <+: ((w.step op).ent r).systems := by
  cases op with
  | newEntity cs =>
    have hne : r ≠ w.nextE := by omega
    have h : (w.step (Op.newEntity cs)).ent r = w.ent r := by
      simp [World.step, World.newEntity, World.ent, Function.update_noteq hne]
    rw [h]
  | newSystem t hks =>
    exact List.prefix_refl _
  | addEntity r0 i =>
    have h1 : w.step (Op.addEntity r0 i) =
        ((w.addEntityStore r0 i).scene.systems).foldl
          (fun acc s => acc.entMatchStep r0 s) (w.addEntityStore r0 i) := rfl
    obtain ⟨M, -, -, h2, h3, -, -, -, -⟩ :=
      entLoop_pairs ((w.addEntityStore r0 i).scene.systems) r0
        (w.addEntityStore r0 i)
    by_cases hrr : r = r0
    · subst hrr
      rw [h1, h2, store_ent_self]
      exact List.prefix_append _ _
    · rw [h1, h3 r hrr, store_ent_ne _ _ hrr]
  | addSystem s =>
    have h1 : w.step (Op.addSystem s) =
        ((w.addSystemAttach s).scene.entities).foldl
          (fun acc p => acc.sysMatchStep s p) (w.addSystemAttach s) := rfl
    obtain ⟨M, -, -, -, -, h4, -, -, -⟩ :=
      sysLoop_pairs ((w.addSystemAttach s).scene.entities) s
        (w.addSystemAttach s)
    rw [h1, h4 r, attach_ent]
    exact List.prefix_append _ _
  | addComponent r0 c =>
    have h1 : w.step (Op.addComponent r0 c) =
        ((w.setEnt r0 ((w.ent r0).add c)).scene.systems).foldl
          (fun acc s => acc.compMatchStep r0 s)
          (w.setEnt r0 ((w.ent r0).add c)) := rfl
    obtain ⟨M, -, -, h2, h3, -, -, -, -⟩ :=
      compLoop_pairs ((w.setEnt r0 ((w.ent r0).add c)).scene.systems) r0
        (w.setEnt r0 ((w.ent r0).add c))
    by_cases hrr : r = r0
    · subst hrr
      rw [h1, h2, ent_setEnt_self]
      exact List.prefix_append _ _
    · rw [h1, h3 r hrr, ent_setEnt_ne _ _ hrr]
  | removeEntity r0 =>
    rw [removeEntity_step]
  | entityDispatch r0 fn =>
    have h2 : (w.step (Op.entityDispatch r0 fn)).ent r = w.ent r := by
      rw [World.ent, World.ent,
        show (w.step (Op.entityDispatch r0 fn)).ents =
          (w.entityDispatch r0 fn).ents from rfl,
        (entityDispatch_skel w r0 fn).1]
    rw [h2]
  | sceneDispatch fn =>
    have h2 : (w.step (Op.sceneDispatch fn)).ent r = w.ent r := by
      rw [World.ent, World.ent,
        show (w.step (Op.sceneDispatch fn)).ents =
          (w.sceneDispatch fn).ents from rfl,
        (sceneDispatch_skel w fn).1]
    rw [h2]

/-! ### Decimal rendering facts -/

lemma toDigitsCore_len_ge (b : Nat) :
    ∀ (f n : Nat) (l : List Char),
      l.length ≤ (Nat.toDigitsCore b f n l).length := by
  intro f
  induction f with
  | zero => intro n l; simp [Nat.toDigitsCore]
  | succ f ih =>
    intro n l
    simp only [Nat.toDigitsCore]
    by_cases h : n / b = 0
    · simp [h]
    · simp only [h, if_false]
      calc l.length ≤ (Nat.digitChar (n % b) :: l).length := by simp
        _ ≤ _ := ih _ _

lemma nat_repr_ne_empty (n : Nat) : Nat.repr n ≠ "" := by
  have h : 0 < (Nat.toDigits 10 n).length := by
    simp only [Nat.toDigits, Nat.toDigitsCore]
    by_cases h : n / 10 = 0
    · simp [h]
    · simp only [h, if_false]
      calc 0 < (Nat.digitChar (n % 10) :: []).length := by simp
        _ ≤ _ := toDigitsCore_len_ge 10 n (n / 10) _
  intro hc
  have hlen : (Nat.repr n).length = 0 := by
    rw [hc]
    rfl
  rw [Nat.repr, List.length_asString] at hlen
  omega

/-! ### The paradigm component test is componental and monotone -/

lemma objHas_objSet {α : Type} (l : List (String × α)) (k k' : String)
    (v : α) (h : objHas l k = true) : objHas (objSet l k' v) k = true := by
  by_cases hk : k = k'
  · subst hk
    rw [objHas, objGet_objSet_self]
    rfl
  · rw [objHas, objGet_objSet_ne _ _ _ _ hk]
    exact h

lemma has_add_mono (e : EntityObj) (cs : List ComponentType)
    (c : ComponentType) (h : e.has cs = true) : (e.add c).has cs = true := by
  rw [EntityObj.has, List.all_eq_true] at *
  intro x hx
  exact objHas_objSet _ _ _ _ (h x hx)

lemma testPos_componentsOnly : ComponentsOnly testPos := by
  intro a b h
  show a.has [cPos] = b.has [cPos]
  rw [EntityObj.has, EntityObj.has, h]

lemma testPos_monotone : MonotoneTest testPos :=
  fun e c h => has_add_mono e [cPos] c h

/-! ## The claims -/

/-- C2.  `Scene.removeEntity` cannot perform its documented job: its first
statement calls `indexOf` on the plain object `_entities`, which has no such
method, so every call throws a TypeError before any state is modified.  On
the concrete scene `wC2` — whose entity 0 is stored under id "0" and matched
by system 0 — `removeEntity` throws, the entity stays in the scene and in
the system's `matchedEntities`, and no `exit` hook is ever invoked. -/
theorem c2_removeEntity_throws :
    (∀ (w : World) (r : Nat),
      w.removeEntity r = Except.error JSError.typeError) ∧
    wC2.removeEntity 0 = Except.error JSError.typeError ∧
    wC2.getEntity "0" = some 0 ∧
    (0 ∈ (wC2.sys 0).entities) ∧
    wC2.step (Op.removeEntity 0) = wC2 ∧
    (Event.exit 0 0 ∉ (wC2.step (Op.removeEntity 0)).log) :=
  ⟨fun _ _ => rfl, rfl, by decide, by decide, rfl, by decide⟩

/-- C6.  `Entity.dispatch` invokes, for each system in the entity's
`memberSystems` that has a callable method of the dispatched name, that
method once, in `memberSystems` order, and changes nothing but the log
(no return value, no state change); and `memberSystems` only ever grows by
appending under every scene operation, so its order is the order in which
the systems started matching the entity. -/
theorem c6_entity_dispatch :
    (∀ (w : World) (r : Nat) (fn : String),
      (w.entityDispatch r fn).log = w.log ++
        (((w.ent r).systems.filter (fun s => (w.sys s).hasHook fn)).map
          (fun s => Event.hook fn s r)) ∧
      (w.entityDispatch r fn).ents = w.ents ∧
      (w.entityDispatch r fn).syss = w.syss ∧
      (w.entityDispatch r fn).scene = w.scene) ∧
    (∀ (w : World) (op : Op) (r : Nat), r < w.nextE →
      (w.ent r).systems <+: ((w.step op).ent r).systems) := by
  constructor
  · intro w r fn
    obtain ⟨h1, h2, h3, h4, -, -⟩ := entityDispatch_out w r fn
    exact ⟨h1, h2, h3, h4⟩
  · intro w op r hr
    exact step_systems_extend w op r hr

/-- Closed instance for C6: on the concrete scene `wC6`, entity 0 is
allocated, and its `memberSystems` list is extended, not rewritten, by a
further `addComponentToEntity`. -/
theorem c6_entity_dispatch_witness :
    0 < wC6.nextE ∧
    ((wC6.ent 0).systems <+:
      ((wC6.step (Op.addComponent 0 cVel)).ent 0).systems) :=
  ⟨by decide, c6_entity_dispatch.2 wC6 (Op.addComponent 0 cVel) 0 (by decide)⟩

/-- C7.  `generateUID` returns the current counter rendered in decimal and
then increments it; three successive calls on a fresh scene yield "0", "1",
"2"; and no scene operation (nor any operation sequence) ever decreases the
counter, which is what rules out reuse of freed ids within a scene's
lifetime. -/
theorem c7_generateUID :
    (∀ w : World, (w.generateUID).1 = Nat.repr w.scene.count ∧
      (w.generateUID).2.scene.count = w.scene.count + 1) ∧
    ((World.init.generateUID).1 = "0" ∧
      ((World.init.generateUID).2.generateUID).1 = "1" ∧
      (((World.init.generateUID).2.generateUID).2.generateUID).1 = "2") ∧
    (∀ (w : World) (op : Op), w.scene.count ≤ (w.step op).scene.count) ∧
    (∀ (w : World) (ops : List Op), w.scene.count ≤ (w.run ops).scene.count) := by
  refine ⟨fun w => ⟨rfl, rfl⟩, ⟨by decide, by decide, by decide⟩, ?_, ?_⟩
  · exact step_count_mono
  · intro w ops
    exact run_count_mono ops w

/-- C8.  `query` returns, in the `_entities` mapping's enumeration order,
exactly the entities satisfying `has` (it is the filter of the mapping's
values, hence a sublist of them, preserving order); `query()` with no
component arguments returns every entity, because `has` of an empty list is
true on any entity.  The embedding gives `query` no world output because the
source reads state and writes only a local array, so two calls with no
intervening mutation trivially agree. -/
theorem c8_query :
    (∀ (w : World) (cs : List ComponentType),
      w.query cs = ((w.scene.entities.filter
        (fun p => (w.ent p.2).has cs)).map (fun p => p.2))) ∧
    (∀ (w : World) (cs : List ComponentType) (r : Nat),
      r ∈ w.query cs ↔
        ∃ id, (id, r) ∈ w.scene.entities ∧ (w.ent r).has cs = true) ∧
    (∀ (w : World) (cs : List ComponentType),
      (w.query cs).Sublist (w.scene.entities.map (fun p => p.2))) ∧
    (∀ w : World, w.query [] = w.scene.entities.map (fun p => p.2)) ∧
    (∀ e : EntityObj, e.has [] = true) := by
  refine ⟨query_eq_filter, ?_, ?_, ?_, fun e => rfl⟩
  · intro w cs r
    rw [query_eq_filter, List.mem_map]
    constructor
    · rintro ⟨p, hp, hpe⟩
      rw [List.mem_filter] at hp
      refine ⟨p.1, ?_, hpe ▸ hp.2⟩
      have hpp : (p.1, r) = p := by
        rw [← hpe]
      rw [hpp]
      exact hp.1
    · rintro ⟨id, hmem, hhas⟩
      exact ⟨(id, r), List.mem_filter.mpr ⟨hmem, hhas⟩, rfl⟩
  · intro w cs
    rw [query_eq_filter]
    exact List.Sublist.map _ (List.filter_sublist _)
  · intro w
    rw [query_eq_filter]
    have hone : (fun p : String × Nat => (w.ent p.2).has []) =
        (fun _ => true) := rfl
    rw [hone, List.filter_true]

/-- C1.  Membership symmetry: in every state reachable by valid operations —
in particular immediately after each mutating scene operation (`addEntity`,
`addSystem`, `addComponentToEntity`, and `removeEntity`, which throws before
mutating anything) — every entity in the scene is in a system's
`matchedEntities` exactly when that system is in the entity's
`memberSystems`. -/
theorem c1_membership_symmetry (ops : List Op)
    (h : World.init.validFrom ops = true) :
    ∀ r s : Nat, (World.init.run ops).inScene r = true →
      s ∈ (World.init.run ops).scene.systems →
      (r ∈ ((World.init.run ops).sys s).entities ↔
        s ∈ ((World.init.run ops).ent r).systems) := by
  intro r s _ _
  exact (symInv_run ops World.init h symInv_init).1 r s

/-- Closed instance for C1: a trace exercising every mutating operation,
with the symmetry read off for the pair (entity 0, system 0). -/
theorem c1_membership_symmetry_witness :
    World.init.validFrom opsC1 = true ∧
    (World.init.run opsC1).inScene 0 = true ∧
    (0 ∈ (World.init.run opsC1).scene.systems) ∧
    (0 ∈ ((World.init.run opsC1).sys 0).entities ↔
      0 ∈ ((World.init.run opsC1).ent 0).systems) :=
  ⟨by decide, by decide, by decide,
    c1_membership_symmetry opsC1 (by decide) 0 0 (by decide) (by decide)⟩

/-- C3 refuted as stated: after `addEntity` with an explicit id equal to the
id of an entity already present (trace `opsC3`: entity 0 is stored under the
generated id "0", then entity 1 is added with the explicit id "0"), entity 0
is still in system 0's `matchedEntities` — and system 0 is in the scene and
its test still passes on entity 0 — yet entity 0 is no longer in the scene,
so membership does not reflect "test holds and the entity is in the scene".
The claim's final clause ("including the case where addEntity was given an
explicit id equal to the id of an entity already present") is exactly the
case that fails. -/
theorem c3_counterexample :
    (0 ∈ (wC3.sys 0).entities) ∧ wC3.inScene 0 = false ∧
    (0 ∈ wC3.scene.systems) ∧ ((wC3.sys 0).test (wC3.ent 0) = true) ∧
    wC3 = World.init.run opsC3 :=
  ⟨by decide, by decide, by decide, by decide, rfl⟩

/-- C3 (amended).  Immediately after every operation of a sound trace — one
whose `addEntity` ids (explicit or generated) are fresh at the moment of
assignment, whose system tests depend only on the entity's components and
never stop holding when a component is added, and whose
`addComponentToEntity` calls target entities currently in the scene — every
(entity, system) pair satisfies: the entity is in the system's
`matchedEntities` iff the system's test currently passes on it, the entity
is currently in the scene and the system is currently in the scene. -/
theorem c3_predicate_consistency (ops : List Op)
    (h : World.init.soundFrom ops) :
    PredConsistent (World.init.run ops) :=
  (predInv_run ops World.init h predInv_init).1

/-- Closed instance for C3 (amended): a sound trace exercising `addEntity`,
`addSystem` and `addComponentToEntity` with the "Position" test. -/
theorem c3_predicate_consistency_witness :
    World.init.soundFrom opsC3W ∧
    PredConsistent (World.init.run opsC3W) := by
  have hs : World.init.soundFrom opsC3W :=
    ⟨⟨testPos_componentsOnly, testPos_monotone⟩, trivial,
      by show 0 < _; decide,
      ⟨by show 0 < _; decide, by decide⟩,
      ⟨by show 0 < _; decide, by decide⟩, trivial⟩
  exact ⟨hs, c3_predicate_consistency opsC3W hs⟩

/-- C4.  `addEntity(entity, id?)` assigns the explicit id when given and the
generated one otherwise, stores the entity in `_entities` under that id
(`getEntity` then finds it), scans the systems in insertion order and, for
exactly those whose test passes on the stored entity, appends the entity to
their `matchedEntities`, appends them to the entity's `memberSystems` (in
insertion order) and invokes `init` exactly once each (the log gains exactly
one `init` event per matching system, in insertion order); and it returns
the entity.  Stated for scenes whose system list has no duplicates and whose
tests do not depend on the entity's `memberSystems` back-references. -/
theorem c4_addEntity (w : World) (r : Nat) (i : Option String)
    (hnd : w.scene.systems.Nodup)
    (hc : ∀ s ∈ w.scene.systems, Componental (w.sys s).test) :
    (w.addEntity r i).2 = r ∧
    ((w.addEntity r i).1.ent r).id = w.assignedId i ∧
    (w.addEntity r i).1.scene.entities =
      objSet w.scene.entities (w.assignedId i) r ∧
    (w.addEntity r i).1.getEntity (w.assignedId i) = some r ∧
    (w.addEntity r i).1.log = w.log ++
      ((w.scene.systems.filter (fun s => (w.sys s).test
        { w.ent r with id := w.assignedId i })).map
          (fun s => Event.init s r)) ∧
    ((w.addEntity r i).1.ent r).systems = (w.ent r).systems ++
      (w.scene.systems.filter (fun s => (w.sys s).test
        { w.ent r with id := w.assignedId i })) ∧
    (∀ s, ((w.addEntity r i).1.sys s).entities = (w.sys s).entities ++
      (if s ∈ w.scene.systems.filter (fun s' => (w.sys s').test
        { w.ent r with id := w.assignedId i }) then [r] else [])) := by
  obtain ⟨h1, h2, h3, h4, h5, h6, h7⟩ := addEntity_out w r i hc
  refine ⟨rfl, ?_, ?_, ?_, ?_, ?_, ?_⟩
  · rw [h2, store_ent_self]
  · rw [h5, store_scene_entities]
  · rw [World.getEntity, h5, store_scene_entities, objGet_objSet_self]
  · rw [h1, store_log]
  · rw [h2, store_ent_self]
  · intro s
    rw [h4 s, store_sys]
    by_cases hm : s ∈ w.scene.systems.filter (fun s' => (w.sys s').test
        { w.ent r with id := w.assignedId i })
    · rw [List.count_eq_one_of_mem (List.Nodup.filter _ hnd) hm, if_pos hm]
      rfl
    · rw [List.count_eq_zero.mpr hm, if_neg hm]
      rfl

/-- Closed instance for C4: adding the "Position" entity 0 to the scene
`wC4` under a generated id. -/
theorem c4_addEntity_witness :
    wC4.scene.systems.Nodup ∧
    (wC4.addEntity 0 none).2 = 0 ∧
    ((wC4.addEntity 0 none).1.ent 0).id = wC4.assignedId none ∧
    (wC4.addEntity 0 none).1.getEntity (wC4.assignedId none) = some 0 := by
  have hcw : ∀ s ∈ wC4.scene.systems, Componental (wC4.sys s).test := by
    intro s hs
    have hsys : wC4.scene.systems = [0] := by decide
    rw [hsys] at hs
    have hs0 : s = 0 := by simpa using hs
    subst hs0
    exact componentsOnly_componental testPos_componentsOnly
  refine ⟨by decide, (c4_addEntity wC4 0 none (by decide) hcw).1,
    (c4_addEntity wC4 0 none (by decide) hcw).2.1,
    (c4_addEntity wC4 0 none (by decide) hcw).2.2.2.1⟩

/-- C5.  `addComponentToEntity(entity, componentType)` first performs
`entity.add(componentType)` (storing a fresh instance under the component's
name), then scans the systems: exactly those whose `matchedEntities` did not
already contain the entity and whose test now passes gain the entity, are
appended to the entity's `memberSystems`, and have `init` invoked exactly
once each (one `init` event per fresh match); already-matched systems are
left untouched whatever their test now says, so every system's
`matchedEntities` only grows along this path.  Stated for scenes whose
system list has no duplicates and whose tests do not depend on the entity's
`memberSystems` back-references. -/
theorem c5_addComponentToEntity (w : World) (r : Nat) (c : ComponentType)
    (hnd : w.scene.systems.Nodup)
    (hc : ∀ s ∈ w.scene.systems, Componental (w.sys s).test) :
    ((w.addComponentToEntity r c).ent r).components =
      objSet (w.ent r).components c.name c.fields ∧
    (w.addComponentToEntity r c).log = w.log ++
      ((w.scene.systems.filter (fun s =>
        !(decide (r ∈ (w.sys s).entities)) &&
          (w.sys s).test ((w.ent r).add c))).map (fun s => Event.init s r)) ∧
    ((w.addComponentToEntity r c).ent r).systems = (w.ent r).systems ++
      (w.scene.systems.filter (fun s =>
        !(decide (r ∈ (w.sys s).entities)) &&
          (w.sys s).test ((w.ent r).add c))) ∧
    (∀ s, ((w.addComponentToEntity r c).sys s).entities =
      (w.sys s).entities ++
        (if s ∈ w.scene.systems.filter (fun s' =>
            !(decide (r ∈ (w.sys s').entities)) &&
              (w.sys s').test ((w.ent r).add c)) then [r] else [])) ∧
    (∀ s, (w.sys s).entities <+:
      ((w.addComponentToEntity r c).sys s).entities) := by
  obtain ⟨h1, h2, h3, h4, h5, h6, h7⟩ := addComponent_out w r c hnd hc
  refine ⟨?_, ?_, ?_, ?_, ?_⟩
  · rw [h2, ent_setEnt_self]
    rfl
  · rw [h1, log_setEnt]
  · rw [h2, ent_setEnt_self]
    rfl
  · intro s
    rw [h4 s, sys_setEnt]
  · intro s
    rw [h4 s, sys_setEnt]
    exact List.prefix_append _ _

/-- Closed instance for C5, the spec's Scenario 2: on `wC5` the entity was
added without "Position" and the "Position" system matched nothing; adding
"Position" through `addComponentToEntity` matches it and fires `init`
exactly once (the log, empty before, is exactly one `init` event after). -/
theorem c5_addComponentToEntity_witness :
    wC5.scene.systems.Nodup ∧
    (wC5.sys 0).entities = [] ∧ wC5.log = [] ∧
    (wC5.addComponentToEntity 0 cPos).log = [Event.init 0 0] ∧
    ((wC5.addComponentToEntity 0 cPos).ent 0).systems =
      (wC5.ent 0).systems ++
        (wC5.scene.systems.filter (fun s =>
          !(decide (0 ∈ (wC5.sys s).entities)) &&
            (wC5.sys s).test ((wC5.ent 0).add cPos))) := by
  have hcw : ∀ s ∈ wC5.scene.systems, Componental (wC5.sys s).test := by
    intro s hs
    have hsys : wC5.scene.systems = [0] := by decide
    rw [hsys] at hs
    have hs0 : s = 0 := by simpa using hs
    subst hs0
    exact componentsOnly_componental testPos_componentsOnly
  refine ⟨by decide, by decide, by decide, ?_,
    (c5_addComponentToEntity wC5 0 cPos (by decide) hcw).2.2.1⟩
  rw [(c5_addComponentToEntity wC5 0 cPos (by decide) hcw).2.1]
  decide

/-- C9 refuted as stated: the claim says `set` throws exactly when the
entity does not hold the component, but with an empty field mapping the
loop body never runs, so `set` on a missing component returns normally:
`eC9` does not hold "Position", yet `set(Position, {})` succeeds. -/
theorem c9_counterexample :
    eC9.has [cPos] = false ∧ eC9.setc cPos [] = Except.ok eC9 :=
  ⟨by decide, rfl⟩

/-- C9 (amended).  `set(componentType, fields)` throws the
null-dereference-class TypeError exactly when the entity does not hold a
component of that name AND the field mapping is non-empty; when the entity
does hold the component, it returns normally with, for every key of the
field mapping in order, the same-named field of the held instance
overwritten. -/
theorem c9_set (e : EntityObj) (c : ComponentType) (data : Obj) :
    (e.setc c data = Except.error JSError.typeError ↔
      (e.has [c] = false ∧ data ≠ [])) ∧
    (∀ inst, e.get c = some inst →
      e.setc c data = Except.ok { e with components :=
        (objSet e.components c.name
          (data.foldl (fun inst1 kv => objSet inst1 kv.1 kv.2) inst)) }) := by
  constructor
  · constructor
    · intro herr
      constructor
      · cases hx : objGet e.components c.name with
        | none =>
          rw [EntityObj.has]
          simp [objHas, hx]
        | some inst =>
          have := setc_ok data e c inst hx
          rw [this] at herr
          simp at herr
      · intro hd
        subst hd
        rw [setc_nil] at herr
        simp at herr
    · rintro ⟨hh, hd⟩
      have hnone : objGet e.components c.name = none := by
        cases hx : objGet e.components c.name with
        | none => rfl
        | some inst =>
          have ht : e.has [c] = true :=
            (has_single_iff e c).mpr (by rw [hx]; rfl)
          rw [hh] at ht
          exact absurd ht (by simp)
      cases data with
      | nil => exact absurd rfl hd
      | cons kv rest => exact setc_missing e c kv rest hnone
  · intro inst h
    exact setc_ok data e c inst h

/-- Closed instance for C9 (amended): overwriting the "x" field of a held
"Position" instance succeeds, and the error characterisation instantiated
at an empty field mapping. -/
theorem c9_set_witness :
    eC9b.get cPos = some cPos.fields ∧
    eC9b.setc cPos [("x", 5)] = Except.ok { eC9b with components :=
      (objSet eC9b.components cPos.name
        (([(("x" : String), (5 : Val))]).foldl
          (fun inst1 kv => objSet inst1 kv.1 kv.2) cPos.fields)) } ∧
    (eC9b.setc cPos [] = Except.error JSError.typeError ↔
      (eC9b.has [cPos] = false ∧ ([] : Obj) ≠ [])) :=
  ⟨by decide, (c9_set eC9b cPos [("x", 5)]).2 cPos.fields (by decide),
    (c9_set eC9b cPos []).1⟩

/-- C10 refuted as stated: the claim says every `test`/`init` call made by
`addEntity` sees the entity "with its final non-empty id", but an explicit
empty-string id is assigned verbatim.  In `wC10`, system 0's test holds only
on entities whose id is the empty string, and `addEntity(e, "")` matches it
and fires its `init`: the scan's test and init calls observed the (final)
empty id. -/
theorem c10_counterexample :
    (wC10.sys 0).entities = [0] ∧ (wC10.ent 0).id = "" ∧
    wC10.log = [Event.init 0 0] ∧ wC10 = World.init.run opsC10 :=
  ⟨by decide, by decide, by decide, rfl⟩

/-- C10 (amended).  During `addEntity`, the id is assigned and the entity is
stored in `_entities` before the system scan begins, and both persist
through every prefix of the scan, so every `test` and `init` call observes
the entity under its final id, already retrievable via `getEntity`; that id
is the non-empty decimal counter rendering when no explicit id is given,
and the explicit id verbatim when one is given (hence non-empty exactly
when the explicit id is).  Likewise `addSystem` sets the system's scene
back-reference before its entity scan, and it persists through every prefix
of the scan, so every `init` it triggers sees the system attached.
(`addEntity` and `addSystem` are exactly these folds, last two conjuncts.) -/
theorem c10_hooks_see_linked_state :
    (∀ (w : World) (r : Nat) (i : Option String) (pre : List Nat),
      ((pre.foldl (fun acc s => acc.entMatchStep r s)
        (w.addEntityStore r i)).ent r).id = w.assignedId i ∧
      (pre.foldl (fun acc s => acc.entMatchStep r s)
        (w.addEntityStore r i)).getEntity (w.assignedId i) = some r ∧
      (i = none → w.assignedId i ≠ "") ∧
      (∀ x, i = some x → w.assignedId i = x)) ∧
    (∀ (w : World) (s : Nat) (pre : List (String × Nat)),
      ((pre.foldl (fun acc p => acc.sysMatchStep s p)
        (w.addSystemAttach s)).sys s).scene = true) ∧
    (∀ (w : World) (r : Nat) (i : Option String),
      (w.addEntity r i).1 = ((w.addEntityStore r i).scene.systems).foldl
        (fun acc s => acc.entMatchStep r s) (w.addEntityStore r i)) ∧
    (∀ (w : World) (s : Nat),
      w.addSystem s = ((w.addSystemAttach s).scene.entities).foldl
        (fun acc p => acc.sysMatchStep s p) (w.addSystemAttach s)) := by
  refine ⟨?_, ?_, fun _ _ _ => rfl, fun _ _ => rfl⟩
  · intro w r i pre
    refine ⟨?_, ?_, ?_, ?_⟩
    · rw [entLoopPre_ent_id, store_ent_self]
    · rw [World.getEntity, entLoopPre_scene, store_scene_entities,
        objGet_objSet_self]
    · intro h
      subst h
      exact nat_repr_ne_empty w.scene.count
    · intro x h
      subst h
      rfl
  · intro w s pre
    rw [sysLoopPre_sys_scene, attach_sys_self]

/-- Closed instance for C10 (amended): at the start of the scan on a fresh
scene, the stored entity already carries the generated id, which is
non-empty. -/
theorem c10_hooks_see_linked_state_witness :
    World.init.assignedId none ≠ "" ∧
    ((([] : List Nat).foldl (fun acc s => acc.entMatchStep 0 s)
      (World.init.addEntityStore 0 none)).ent 0).id =
        World.init.assignedId none :=
  ⟨(c10_hooks_see_linked_state.1 World.init 0 none []).2.2.1 rfl,
    (c10_hooks_see_linked_state.1 World.init 0 none []).1⟩
